import Mathlib

/-!
# Verification of the ui-bridge SWC instrumentation engine

A shallow embedding of the Rust sources of `qontinui/ui-bridge`:

* `packages/ui-bridge/swc-plugin-wasm/src/config.rs` (`PluginConfig`)
* `packages/ui-bridge/swc-plugin-wasm/src/id_generator.rs`
* `packages/ui-bridge/swc-plugin-wasm/src/alias_generator.rs`
* `packages/ui-bridge/swc-plugin-wasm/src/text_extractor.rs`
* `packages/ui-bridge-swc-plugin/src/visitor.rs` (`UIBridgeVisitor`)

Conventions of the embedding:

* Rust `String`/`&str` become Lean `String`; `usize` becomes `Nat`;
  `u64`/`u32` arithmetic is `Nat` with explicit `% 2 ^ 64` / `% 2 ^ 32`.
* Rust's Unicode character classes (`char::is_lowercase`,
  `char::is_uppercase`, `char::is_alphanumeric`, `char::is_whitespace`,
  `char::to_lowercase`) are modelled by their ASCII restrictions
  (`Char.isLower`, `Char.isUpper`, `Char.isAlphanum`, `Char.isWhitespace`,
  `Char.toLower`), which agree with Rust on all ASCII input.
* `HashMap<String, usize>` is modelled as an association list,
  `HashSet<String>` as a list used for membership, and `Vec` push/last/pop
  as append / `getLast?` / `dropLast`.
-/

/-! ## Configuration model (config.rs) -/

/-- `PluginConfig` from config.rs. -/
structure PluginConfig where
  elements : List String
  id_prefix : String
  id_attribute : String
  aliases_attribute : String
  type_attribute : String
  generate_aliases : Bool
  include_component_name : Bool
  include_file_path : Bool
  hash_ids : Bool
  max_aliases : Nat
  skip_existing : Bool
  only_in_components : List String
  skip_in_components : List String
  verbose : Bool
deriving Repr, DecidableEq

/-- `default_elements()` from config.rs. -/
def default_elements : List String :=
  ["button", "input", "select", "textarea", "a", "form"]

/-- `PluginConfig::default()` from config.rs. -/
def defaultConfig : PluginConfig where
  elements := default_elements
  id_prefix := "ui"
  id_attribute := "data-ui-id"
  aliases_attribute := "data-ui-aliases"
  type_attribute := "data-ui-type"
  generate_aliases := true
  include_component_name := true
  include_file_path := false
  hash_ids := false
  max_aliases := 5
  skip_existing := true
  only_in_components := []
  skip_in_components := []
  verbose := false

/-- `PluginConfig::should_instrument` from config.rs:
`self.elements.iter().any(|e| e == tag_name)`. -/
def PluginConfig.should_instrument (cfg : PluginConfig) (tag_name : String) : Bool :=
  cfg.elements.any (fun e => e == tag_name)

/-- `PluginConfig::should_skip_component` from config.rs. -/
def PluginConfig.should_skip_component (cfg : PluginConfig)
    (component_name : Option String) : Bool :=
  match component_name with
  | some name =>
    if cfg.skip_in_components.any (fun c => c == name) then
      true
    else if ¬ cfg.only_in_components.isEmpty
        ∧ ¬ cfg.only_in_components.any (fun c => c == name) then
      true
    else
      false
  | none =>
    if ¬ cfg.only_in_components.isEmpty then true else false

/-! ## String utilities of the identifier generator (id_generator.rs)

Rust's standard string operations (`trim`, `to_lowercase`, `split`,
`ends_with`, …) are modelled by structurally recursive functions over
the character list, so every definition evaluates inside the kernel. -/

/-- Rust `str::trim` (drop leading and trailing whitespace). -/
def rustTrim (s : String) : String :=
  String.mk
    (((s.data.dropWhile Char.isWhitespace).reverse.dropWhile Char.isWhitespace).reverse)

/-- Rust `str::to_lowercase`, restricted to its ASCII behaviour. -/
def rustToLower (s : String) : String :=
  String.mk (s.data.map Char.toLower)

/-- Split a character list at every character satisfying `p`, keeping
empty segments — the segmentation Rust's `str::split` produces. -/
def splitChars (p : Char → Bool) : List Char → List (List Char)
  | [] => [[]]
  | c :: cs =>
    if p c then [] :: splitChars p cs
    else
      match splitChars p cs with
      | [] => [[c]]
      | w :: ws => (c :: w) :: ws

/-- Rust `str::ends_with('-')` on the accumulator string. -/
def endsWithChar (s : String) (c : Char) : Bool :=
  s.data.getLast? == some c

/-- Decimal digit characters, as produced by Rust's `Display` for `usize`. -/
def decDigitChar : Nat → Char
  | 0 => '0' | 1 => '1' | 2 => '2' | 3 => '3' | 4 => '4'
  | 5 => '5' | 6 => '6' | 7 => '7' | 8 => '8' | _ => '9'

/-- Fuelled digit expansion: with fuel above `n` this is the decimal
digit list of `n` (no sign, no leading zeros). -/
def decCharsAux : Nat → Nat → List Char
  | 0, _ => []
  | fuel + 1, n =>
    if n < 10 then [decDigitChar n]
    else decCharsAux fuel (n / 10) ++ [decDigitChar (n % 10)]

/-- Character list of the decimal rendering of a `Nat`,
as `format!("{}", n)` renders a `usize`. -/
def decChars (n : Nat) : List Char :=
  decCharsAux (n + 1) n

/-- Decimal rendering of a `usize` as `format!("{}", n)` produces it. -/
def natToDec (n : Nat) : String :=
  String.mk (decChars n)

/-- Rust `str::contains` (substring containment). -/
def rustContains (hay needle : String) : Bool :=
  (List.range (hay.data.length + 1)).any
    (fun i => needle.data.isPrefixOf (hay.data.drop i))

/-- `to_kebab_case`'s character loop from id_generator.rs, carrying the
previous character (`chars[i-1]`) and peeking at the next one (`chars[i+1]`).
`result` is the accumulator string being pushed into. -/
def kebabLoop : Option Char → List Char → String → String
  | _, [], result => result
  | prev, c :: rest, result =>
    let result :=
      if c.isUpper then
        let result :=
          if ¬ result.isEmpty ∧ ¬ endsWithChar result '-' then
            let prev_was_upper := match prev with | some p => p.isUpper | none => false
            let prev_was_lower := match prev with | some p => p.isLower | none => false
            let next_is_lower := match rest.head? with | some n => n.isLower | none => false
            if prev_was_lower || (prev_was_upper && next_is_lower) then
              result.push '-'
            else result
          else result
        result.push c.toLower
      else if c.isAlphanum then
        result.push c
      else if ¬ result.isEmpty ∧ ¬ endsWithChar result '-' then
        result.push '-'
      else
        result
    kebabLoop (some c) rest result

/-- `to_kebab_case` from id_generator.rs. -/
def to_kebab_case (s : String) : String :=
  let result := kebabLoop none s.data ""
  if endsWithChar result '-' then result.dropRight 1 else result

/-- `normalize_text` from id_generator.rs: lowercase, replace
non-alphanumerics with spaces, split on whitespace, keep at most 4 words,
join with hyphens. -/
def normalize_text (s : String) : String :=
  let mapped := (rustToLower s).data.map (fun c => if c.isAlphanum then c else ' ')
  let words := ((splitChars (fun c => c = ' ') mapped).map String.mk).filter
    (fun w => ¬ w.isEmpty)
  String.intercalate "-" (words.take 4)

/-- `extract_file_name` from id_generator.rs:
`path.split(['/', '\\']).last().split('.').next()`. -/
def extract_file_name (path : String) : String :=
  let segs := (splitChars (fun c => c = '/' ∨ c = '\\') path.data).map String.mk
  let last := (segs.getLast?).getD "unknown"
  ((((splitChars (fun c => c = '.') last.data).map String.mk).head?).getD "unknown")

/-- `get_element_type_suffix` from id_generator.rs. -/
def get_element_type_suffix (tag_name : String) : String :=
  match tag_name with
  | "a" => "link"
  | "button" => "button"
  | "input" => "input"
  | "select" => "dropdown"
  | "textarea" => "textarea"
  | "form" => "form"
  | _ => tag_name

/-- `get_semantic_type` from id_generator.rs: the semantic-type classifier
(declared input type table, then placeholder scan, then name scan). -/
def get_semantic_type (tag_name : String) (input_type : Option String)
    (placeholder : Option String) (name : Option String) : String :=
  match tag_name with
  | "button" => "button"
  | "a" => "link"
  | "form" => "form"
  | "select" => "dropdown"
  | "textarea" => "textarea"
  | "input" =>
    let byType : Option String :=
      match input_type with
      | some t =>
        match t with
        | "email" => some "email-input"
        | "password" => some "password-input"
        | "search" => some "search-input"
        | "tel" => some "phone-input"
        | "url" => some "url-input"
        | "number" => some "number-input"
        | "checkbox" => some "checkbox"
        | "radio" => some "radio"
        | "submit" => some "submit-button"
        | "file" => some "file-input"
        | "date" => some "date-input"
        | "time" => some "time-input"
        | _ => none
      | none => none
    match byType with
    | some r => r
    | none =>
      let byPlaceholder : Option String :=
        match placeholder with
        | some p =>
          let lower := rustToLower p
          if rustContains lower "email" then some "email-input"
          else if rustContains lower "password" then some "password-input"
          else if rustContains lower "search" then some "search-input"
          else if rustContains lower "phone" ∨ rustContains lower "tel" then
            some "phone-input"
          else none
        | none => none
      match byPlaceholder with
      | some r => r
      | none =>
        match name with
        | some n =>
          let lower := rustToLower n
          if rustContains lower "email" then "email-input"
          else if rustContains lower "password" then "password-input"
          else "input"
        | none => "input"
  | _ => tag_name

/-! ## `DefaultHasher` (SipHash-1-3 with zero keys) and `hash_id`

`hash_id` in id_generator.rs feeds the identifier string through
`std::collections::hash_map::DefaultHasher`, which is SipHash-1-3 keyed
with `(0, 0)`.  Hashing a `str` writes its UTF-8 bytes followed by a
single `0xff` byte.  64-bit words are `Nat` reduced mod `2 ^ 64`. -/

/-- UTF-8 encoding of one character (`str::as_bytes`). -/
def utf8Bytes (c : Char) : List Nat :=
  let n := c.toNat
  if n < 0x80 then [n]
  else if n < 0x800 then
    [0xC0 ||| (n >>> 6), 0x80 ||| (n &&& 0x3F)]
  else if n < 0x10000 then
    [0xE0 ||| (n >>> 12), 0x80 ||| ((n >>> 6) &&& 0x3F), 0x80 ||| (n &&& 0x3F)]
  else
    [0xF0 ||| (n >>> 18), 0x80 ||| ((n >>> 12) &&& 0x3F),
     0x80 ||| ((n >>> 6) &&& 0x3F), 0x80 ||| (n &&& 0x3F)]

/-- UTF-8 byte stream of a string. -/
def strBytes (s : String) : List Nat :=
  s.data.flatMap utf8Bytes

/-- 64-bit wrap. -/
def wrap64 (n : Nat) : Nat := n % 2 ^ 64

/-- 64-bit left rotation. -/
def rotl64 (x b : Nat) : Nat :=
  ((x <<< b) % 2 ^ 64) ||| (x >>> (64 - b))

/-- The four 64-bit state words of SipHash. -/
structure SipState where
  v0 : Nat
  v1 : Nat
  v2 : Nat
  v3 : Nat

/-- One SIPROUND (core/src/hash/sip.rs `compress!`). -/
def sipRound (s : SipState) : SipState :=
  let v0 := wrap64 (s.v0 + s.v1)
  let v1 := rotl64 s.v1 13
  let v1 := v1 ^^^ v0
  let v0 := rotl64 v0 32
  let v2 := wrap64 (s.v2 + s.v3)
  let v3 := rotl64 s.v3 16
  let v3 := v3 ^^^ v2
  let v0 := wrap64 (v0 + v3)
  let v3 := rotl64 v3 21
  let v3 := v3 ^^^ v0
  let v2 := wrap64 (v2 + v1)
  let v1 := rotl64 v1 17
  let v1 := v1 ^^^ v2
  let v2 := rotl64 v2 32
  ⟨v0, v1, v2, v3⟩

/-- Initial SipHash state for keys `(0, 0)` (`SipHasher13::new_with_keys(0, 0)`). -/
def sipInit : SipState :=
  ⟨0x736f6d6570736575, 0x646f72616e646f6d, 0x6c7967656e657261, 0x7465646279746573⟩

/-- Little-endian word value of at most 8 bytes. -/
def leWord (bs : List Nat) : Nat :=
  bs.foldr (fun b acc => acc * 256 + b) 0

/-- Absorb one full 8-byte message word (c = 1 round). -/
def sipProcessWord (s : SipState) (m : Nat) : SipState :=
  let s := { s with v3 := s.v3 ^^^ m }
  let s := sipRound s
  { s with v0 := s.v0 ^^^ m }

/-- Absorb all full 8-byte words, returning the remaining tail bytes. -/
def sipProcessBytes (s : SipState) : List Nat → SipState × List Nat
  | b0 :: b1 :: b2 :: b3 :: b4 :: b5 :: b6 :: b7 :: rest =>
    sipProcessBytes (sipProcessWord s (leWord [b0, b1, b2, b3, b4, b5, b6, b7])) rest
  | bs => (s, bs)

/-- SipHash-1-3 with keys `(0, 0)` of a byte stream
(`SipHasher13::finish`, d = 3 rounds). -/
def sip13 (bytes : List Nat) : Nat :=
  let len := bytes.length
  let (s, tail) := sipProcessBytes sipInit bytes
  let b := ((len % 256) <<< 56) ||| leWord tail
  let s := { s with v3 := s.v3 ^^^ b }
  let s := sipRound s
  let s := { s with v0 := s.v0 ^^^ b }
  let s := { s with v2 := s.v2 ^^^ 0xff }
  let s := sipRound (sipRound (sipRound s))
  ((s.v0 ^^^ s.v1) ^^^ s.v2) ^^^ s.v3

/-- `DefaultHasher` digest of a `&str`: `Hash for str` writes the UTF-8
bytes followed by one `0xff` byte, then `finish()` is taken. -/
def defaultHasherStr (s : String) : Nat :=
  sip13 (strBytes s ++ [0xff])

/-- Lowercase hexadecimal digit characters, as `{:x}` renders them. -/
def hexDigitChar : Nat → Char
  | 0 => '0' | 1 => '1' | 2 => '2' | 3 => '3' | 4 => '4'
  | 5 => '5' | 6 => '6' | 7 => '7' | 8 => '8' | 9 => '9'
  | 10 => 'a' | 11 => 'b' | 12 => 'c' | 13 => 'd' | 14 => 'e' | _ => 'f'

/-- Fuelled hexadecimal digit expansion. -/
def hexCharsAux : Nat → Nat → List Char
  | 0, _ => []
  | fuel + 1, n =>
    if n < 16 then [hexDigitChar n]
    else hexCharsAux fuel (n / 16) ++ [hexDigitChar (n % 16)]

/-- Character list of the lowercase hexadecimal rendering of a `Nat`. -/
def hexChars (n : Nat) : List Char :=
  hexCharsAux (n + 1) n

/-- `{:08x}`: lowercase hexadecimal, zero-padded on the left to width 8. -/
def hexPad8 (n : Nat) : String :=
  let h := hexChars n
  String.mk (List.replicate (8 - h.length) '0' ++ h)

/-- `hash_id` from id_generator.rs:
`format!("ui-{:08x}", hasher.finish() as u32)`. -/
def hash_id (id : String) : String :=
  "ui-" ++ hexPad8 (defaultHasherStr id % 2 ^ 32)

/-! ## Identifier generation (id_generator.rs) -/

/-- `IdContext` from id_generator.rs. -/
structure IdContext where
  component_name : Option String
  file_path : String
  tag_name : String
  text_content : Option String
  aria_label : Option String
  placeholder : Option String
  title : Option String
  existing_id : Option String
  element_index : Nat
deriving Repr, DecidableEq

/-- `parts.join("-")` (Rust `Vec::join` with separator `"-"`). -/
def joinDash : List String → String
  | [] => ""
  | [p] => p
  | p :: ps => p ++ "-" ++ joinDash ps

/-- The component-name part pushed by `generate_id` (0 or 1 entries). -/
def componentPart (cfg : PluginConfig) (ctx : IdContext) : List String :=
  if cfg.include_component_name then
    match ctx.component_name with
    | some name => [to_kebab_case name]
    | none => []
  else []

/-- The file-name part pushed by `generate_id` (0 or 1 entries). -/
def filePart (cfg : PluginConfig) (ctx : IdContext) : List String :=
  if cfg.include_file_path then
    let file_part := extract_file_name ctx.file_path
    if ¬ file_part.isEmpty then [to_kebab_case file_part] else []
  else []

/-- The descriptor source selected by `generate_id`:
`ctx.existing_id.or(text).or(aria).or(placeholder).or(title)` — the
first *present* value, as Rust's `Option::or` chooses it. -/
def descriptorOf (ctx : IdContext) : Option String :=
  (((ctx.existing_id.or ctx.text_content).or ctx.aria_label).or
    ctx.placeholder).or ctx.title

/-- The normalized-descriptor part pushed by `generate_id`
(0 or 1 entries; dropped when absent or normalizing to empty). -/
def descPart (ctx : IdContext) : List String :=
  match descriptorOf ctx with
  | some desc =>
    let normalized := normalize_text desc
    if ¬ normalized.isEmpty then [normalized] else []
  | none => []

/-- The `parts` vector of `generate_id` just before the semantic-type
suffix is pushed: the prefix, then the pushes of the three optional
parts in source order. -/
def idPartsPre (cfg : PluginConfig) (ctx : IdContext) : List String :=
  cfg.id_prefix :: (componentPart cfg ctx ++ filePart cfg ctx ++ descPart ctx)

/-- `generate_id` from id_generator.rs. -/
def generate_id (cfg : PluginConfig) (ctx : IdContext) : String :=
  let parts := idPartsPre cfg ctx ++ [get_element_type_suffix ctx.tag_name]
  let id := joinDash parts
  if cfg.hash_ids then hash_id id else id

/-! ## Alias generation (alias_generator.rs) -/

/-- `AliasContext` from alias_generator.rs. -/
structure AliasContext where
  tag_name : String
  text_content : Option String
  aria_label : Option String
  placeholder : Option String
  title : Option String
  name : Option String
deriving Repr, DecidableEq

/-- `normalize_for_alias` from alias_generator.rs: trim, lowercase, keep
alphanumerics and whitespace, collapse whitespace runs to single spaces. -/
def normalize_for_alias (s : String) : String :=
  let lowered := rustToLower (rustTrim s)
  let filtered := lowered.data.filter (fun c => c.isAlphanum ∨ c.isWhitespace)
  let words := ((splitChars Char.isWhitespace filtered).map String.mk).filter
    (fun w => ¬ w.isEmpty)
  String.intercalate " " words

/-- The fixed synonym table of `get_synonyms` (trigger phrases, synonyms),
in source order. -/
def synonym_map : List (List String × List String) :=
  [ (["submit", "send", "go"], ["submit", "send", "go", "confirm"]),
    (["sign in", "signin", "log in", "login"],
     ["sign in", "signin", "log in", "login", "authenticate"]),
    (["sign up", "signup", "register", "create account"],
     ["sign up", "signup", "register", "create account", "join"]),
    (["sign out", "signout", "log out", "logout"],
     ["sign out", "signout", "log out", "logout", "exit"]),
    (["cancel", "close", "dismiss", "x"],
     ["cancel", "close", "dismiss", "exit", "abort"]),
    (["save", "store", "keep"], ["save", "store", "keep", "persist", "apply"]),
    (["delete", "remove", "trash"],
     ["delete", "remove", "trash", "discard", "erase"]),
    (["edit", "modify", "change", "update"],
     ["edit", "modify", "change", "update", "alter"]),
    (["search", "find", "lookup"],
     ["search", "find", "lookup", "query", "filter"]),
    (["next", "continue", "proceed", "forward"],
     ["next", "continue", "proceed", "forward", "advance"]),
    (["back", "previous", "prev", "return"],
     ["back", "previous", "prev", "return", "go back"]),
    (["start", "begin", "launch", "run"],
     ["start", "begin", "launch", "run", "execute", "initiate"]),
    (["stop", "end", "halt", "pause"],
     ["stop", "end", "halt", "pause", "terminate"]),
    (["add", "create", "new", "plus"],
     ["add", "create", "new", "plus", "insert"]),
    (["download", "export", "save as"],
     ["download", "export", "save as", "get"]),
    (["upload", "import", "attach"],
     ["upload", "import", "attach", "add file"]),
    (["confirm", "ok", "okay", "yes", "accept"],
     ["confirm", "ok", "okay", "yes", "accept", "agree"]),
    (["deny", "no", "reject", "decline"],
     ["deny", "no", "reject", "decline", "refuse"]),
    (["help", "support", "info", "information"],
     ["help", "support", "info", "information", "faq"]),
    (["settings", "preferences", "options", "config"],
     ["settings", "preferences", "options", "config", "configure"]),
    (["profile", "account", "user"],
     ["profile", "account", "user", "my account"]),
    (["home", "main", "dashboard"],
     ["home", "main", "dashboard", "start page"]),
    (["menu", "navigation", "nav"],
     ["menu", "navigation", "nav", "hamburger"]),
    (["refresh", "reload", "update"],
     ["refresh", "reload", "update", "sync"]),
    (["copy", "duplicate", "clone"],
     ["copy", "duplicate", "clone", "replicate"]),
    (["paste", "insert"], ["paste", "insert", "put"]),
    (["share", "send to"], ["share", "send to", "forward", "distribute"]),
    (["view", "show", "display", "see"],
     ["view", "show", "display", "see", "reveal"]),
    (["hide", "conceal"], ["hide", "conceal", "collapse", "minimize"]),
    (["expand", "more", "show more"],
     ["expand", "more", "show more", "details", "see all"]),
    (["collapse", "less", "show less"],
     ["collapse", "less", "show less", "hide details"]) ]

/-- `get_synonyms` from alias_generator.rs: the first group (in table
order) with a trigger contained in `text` contributes its synonyms, each
skipped when equal to `text` or already collected; later groups are
ignored (`break`). -/
def get_synonyms (text : String) : List String :=
  match synonym_map.find? (fun g => g.1.any (fun t => rustContains text t)) with
  | some g =>
    g.2.foldl
      (fun acc syn => if syn ≠ text ∧ ¬ acc.contains syn then acc ++ [syn] else acc)
      []
  | none => []

/-- `generate_aliases` from alias_generator.rs. -/
def generate_aliases (cfg : PluginConfig) (ctx : AliasContext) : List String :=
  let aliases : List String := []
  let aliases :=
    match ctx.text_content with
    | some text =>
      let normalized := normalize_for_alias text
      if ¬ normalized.isEmpty then
        let aliases := aliases ++ [normalized]
        (get_synonyms normalized).foldl
          (fun acc syn => if ¬ acc.contains syn then acc ++ [syn] else acc)
          aliases
      else aliases
    | none => aliases
  let addPlain := fun (aliases : List String) (v : Option String) =>
    match v with
    | some s =>
      let normalized := normalize_for_alias s
      if ¬ normalized.isEmpty ∧ ¬ aliases.contains normalized then
        aliases ++ [normalized]
      else aliases
    | none => aliases
  let aliases := addPlain aliases ctx.aria_label
  let aliases := addPlain aliases ctx.placeholder
  let aliases := addPlain aliases ctx.title
  let aliases := addPlain aliases ctx.name
  aliases.take cfg.max_aliases

/-- `format_aliases` from alias_generator.rs: `aliases.join(",")`. -/
def format_aliases (aliases : List String) : String :=
  String.intercalate "," aliases

/-! ## JSX tree model (swc AST fragments used by the plugin)

`Node` merges the swc node kinds the visitor distinguishes: JSX element
children (`JSXText`, expression containers, nested elements, fragments)
and the program nodes tracked for component scope (`FnDecl`,
`VarDeclarator` with a function/arrow init, `ClassDecl`).  `otherNode`
stands for any other container node, descended into without altering
scope; `jsxExprOther` for any non-literal expression child.  `NodeList`
is the children vector (a custom list so that all recursion over the
tree is structural). -/

/-- `JSXAttrName`: a plain identifier or a namespaced name. -/
inductive JSXAttrName where
  | ident (s : String)
  | namespacedName (ns n : String)
deriving Repr, DecidableEq

/-- The value shapes of a JSX attribute that the extractor distinguishes:
a string literal, some other literal, an expression container holding a
string literal, or any other shape. -/
inductive JSXAttrValue where
  | litStr (s : String)
  | litOther
  | exprLitStr (s : String)
  | exprOther
deriving Repr, DecidableEq

/-- `JSXAttr`: attribute name and optional value. -/
structure JSXAttr where
  name : JSXAttrName
  value : Option JSXAttrValue
deriving Repr, DecidableEq

/-- `JSXAttrOrSpread`. -/
inductive JSXAttrOrSpread where
  | jsxAttr (a : JSXAttr)
  | spreadElement
deriving Repr, DecidableEq

/-- `JSXElementName`: identifier, member expression, or namespaced name. -/
inductive JSXElementName where
  | ident (s : String)
  | memberExpr
  | namespacedName
deriving Repr, DecidableEq

mutual
/-- Tree nodes (see the section comment above). -/
inductive Node where
  | jsxElement (name : JSXElementName) (attrs : List JSXAttrOrSpread) (children : NodeList)
  | jsxText (s : String)
  | jsxExprLitStr (s : String)
  | jsxExprTpl (quasis : List String)
  | jsxExprOther
  | jsxFragment (children : NodeList)
  | fnDecl (name : String) (body : NodeList)
  | varDeclFnInit (name : String) (body : NodeList)
  | varDeclOtherInit (name : String) (body : NodeList)
  | classDecl (name : String) (body : NodeList)
  | otherNode (children : NodeList)
/-- Children vector. -/
inductive NodeList where
  | nil
  | cons (head : Node) (tail : NodeList)
end

/-! ## Text extraction (text_extractor.rs) -/

mutual
/-- The parts one child contributes to `extract_text_content`'s
`text_parts` vector (text_extractor.rs, match arms in source order;
any other node kind falls to the catch-all and contributes nothing). -/
def childTextParts : Node → List String
  | .jsxText s =>
    let trimmed := rustTrim s
    if trimmed.isEmpty then [] else [trimmed]
  | .jsxExprLitStr s =>
    let trimmed := rustTrim s
    if trimmed.isEmpty then [] else [trimmed]
  | .jsxExprTpl quasis =>
    (quasis.map rustTrim).filter (fun t => ¬ t.isEmpty)
  | .jsxElement _ _ children =>
    let ps := childrenTextParts children
    if ps.isEmpty then [] else [String.intercalate " " ps]
  | .jsxFragment children =>
    let ps := childrenTextParts children
    if ps.isEmpty then [] else [String.intercalate " " ps]
  | _ => []
/-- Concatenation of `childTextParts` over a children vector. -/
def childrenTextParts : NodeList → List String
  | .nil => []
  | .cons c cs => childTextParts c ++ childrenTextParts cs
end

/-- `extract_text_content` from text_extractor.rs: the collected parts
joined with single spaces, `none` when no non-empty part was found. -/
def extract_text_content (children : NodeList) : Option String :=
  let ps := childrenTextParts children
  if ps.isEmpty then none else some (String.intercalate " " ps)

/-- `get_attribute_value` from text_extractor.rs: the first attribute
whose (non-namespaced) name matches decides the result — a string
literal or a string literal inside an expression container yields its
value, any other shape yields `none` (the loop returns, it does not
continue). -/
def get_attribute_value (attrs : List JSXAttrOrSpread) (attr_name : String) :
    Option String :=
  match attrs with
  | [] => none
  | .jsxAttr a :: rest =>
    match a.name with
    | .ident s =>
      if s == attr_name then
        match a.value with
        | some (.litStr v) => some v
        | some (.exprLitStr v) => some v
        | _ => none
      else get_attribute_value rest attr_name
    | .namespacedName _ _ => get_attribute_value rest attr_name
  | .spreadElement :: rest => get_attribute_value rest attr_name

/-- The per-attribute test of `has_attribute`: a plain (non-spread)
attribute whose non-namespaced name matches. -/
def attrNamed (attr_name : String) (attr : JSXAttrOrSpread) : Bool :=
  match attr with
  | .jsxAttr a =>
    match a.name with
    | .ident s => s == attr_name
    | _ => false
  | _ => false

/-- `has_attribute` from text_extractor.rs. -/
def has_attribute (attrs : List JSXAttrOrSpread) (attr_name : String) : Bool :=
  attrs.any (attrNamed attr_name)

/-- The number of attributes carrying a given name. -/
def countAttrNamed (attrs : List JSXAttrOrSpread) (attr_name : String) : Nat :=
  attrs.countP (attrNamed attr_name)

/-- `get_tag_name` from text_extractor.rs. -/
def get_tag_name (name : JSXElementName) : Option String :=
  match name with
  | .ident s => some s
  | .memberExpr => none
  | .namespacedName => none

/-- `is_html_element` from text_extractor.rs: first character lowercase. -/
def is_html_element (tag_name : String) : Bool :=
  ((tag_name.data.head?).map Char.isLower).getD false

/-! ## Traversal state and the visitor (visitor.rs) -/

/-- Ghost record of one identifier issuance: the arguments of the
`add_attribute(id)` call for one instrumented element (also the payload
of the verbose log line).  It influences nothing else. -/
structure IssuedEntry where
  tag : String
  generated : String
  index : Nat
  collided : Bool
deriving Repr, DecidableEq

/-- The final identifier attached for a journal entry: on a collision
the generated identifier with `-{element_index}` appended, otherwise the
generated identifier itself. -/
def IssuedEntry.finalId (e : IssuedEntry) : String :=
  if e.collided then e.generated ++ "-" ++ natToDec e.index else e.generated

/-- The visitor's mutable state (`UIBridgeVisitor` fields, minus the
immutable config and filename): component stack, per-tag counters,
issued-ID set, plus the ghost issuance journal. -/
structure TraversalState where
  component_stack : List String
  element_counters : List (String × Nat)
  processed_ids : List String
  journal : List IssuedEntry
deriving Repr, DecidableEq

/-- Fresh state per source unit (`UIBridgeVisitor::new`). -/
def initialState : TraversalState := ⟨[], [], [], []⟩

/-- `current_component`: top of the component stack (`Vec::last`). -/
def current_component (st : TraversalState) : Option String :=
  st.component_stack.getLast?

/-- Counter lookup in the association list modelling
`HashMap<String, usize>`; an absent key reads as 0 (`or_insert(0)`). -/
def lookupCounter (m : List (String × Nat)) (tag : String) : Nat :=
  match m.find? (fun p => p.1 == tag) with
  | some p => p.2
  | none => 0

/-- Counter store into the association list. -/
def setCounter : List (String × Nat) → String → Nat → List (String × Nat)
  | [], tag, v => [(tag, v)]
  | p :: ps, tag, v =>
    if p.1 == tag then (tag, v) :: ps else p :: setCounter ps tag v

/-- `get_element_index` from visitor.rs: increment this tag's counter
(creating it at 0 first) and return the new value. -/
def get_element_index (st : TraversalState) (tag_name : String) :
    Nat × TraversalState :=
  let counter := lookupCounter st.element_counters tag_name + 1
  (counter, { st with element_counters := setCounter st.element_counters tag_name counter })

/-- `add_attribute` from visitor.rs: the pushed attribute — a plain
identifier name with a string-literal value. -/
def mkAttr (name value : String) : JSXAttrOrSpread :=
  .jsxAttr ⟨.ident name, some (.litStr value)⟩

/-- `is_component_name` from visitor.rs: first character uppercase. -/
def is_component_name (name : String) : Bool :=
  ((name.data.head?).map Char.isUpper).getD false

/-- The collision-resolution block of `process_jsx_element`
(visitor.rs): a generated identifier already in `processed_ids` gets
`-{element_index}` appended and the set is left unchanged; otherwise the
identifier is recorded and used as is. -/
def resolveCollision (st : TraversalState) (generated_id : String)
    (element_index : Nat) : String × TraversalState :=
  if st.processed_ids.contains generated_id then
    (generated_id ++ "-" ++ natToDec element_index, st)
  else
    (generated_id, { st with processed_ids := generated_id :: st.processed_ids })

/-- The `IdContext` built by `process_jsx_element` for one element
(`element_index` already fetched). -/
def idCtx (filename : String) (st : TraversalState) (tag_name : String)
    (attrs : List JSXAttrOrSpread) (children : NodeList)
    (element_index : Nat) : IdContext where
  component_name := current_component st
  file_path := filename
  tag_name := tag_name
  text_content := extract_text_content children
  aria_label := get_attribute_value attrs "aria-label"
  placeholder := get_attribute_value attrs "placeholder"
  title := get_attribute_value attrs "title"
  existing_id := get_attribute_value attrs "id"
  element_index := element_index

/-- The `AliasContext` built by `process_jsx_element` for one element. -/
def aliasCtx (tag_name : String) (attrs : List JSXAttrOrSpread)
    (children : NodeList) : AliasContext where
  tag_name := tag_name
  text_content := extract_text_content children
  aria_label := get_attribute_value attrs "aria-label"
  placeholder := get_attribute_value attrs "placeholder"
  title := get_attribute_value attrs "title"
  name := get_attribute_value attrs "name"

/-- The attributes `process_jsx_element` appends for one instrumented
element: identifier, semantic type, and (if enabled and non-empty) the
comma-joined aliases. -/
def appendedAttrs (cfg : PluginConfig) (tag_name : String)
    (attrs : List JSXAttrOrSpread) (children : NodeList)
    (final_id : String) : List JSXAttrOrSpread :=
  let semantic_type := get_semantic_type tag_name
    (get_attribute_value attrs "type") (get_attribute_value attrs "placeholder")
    (get_attribute_value attrs "name")
  [mkAttr cfg.id_attribute final_id, mkAttr cfg.type_attribute semantic_type] ++
    (if cfg.generate_aliases then
      let aliases := generate_aliases cfg (aliasCtx tag_name attrs children)
      if ¬ aliases.isEmpty then
        [mkAttr cfg.aliases_attribute (format_aliases aliases)]
      else []
    else [])

/-- The instrumentation branch of `process_jsx_element` (all filters
passed): fetch the positional counter, generate the identifier, resolve
collisions, record the issuance, and append the produced attributes. -/
def instrumentStep (cfg : PluginConfig) (filename : String)
    (st : TraversalState) (tag_name : String)
    (attrs : List JSXAttrOrSpread) (children : NodeList) :
    List JSXAttrOrSpread × TraversalState :=
  let gei := get_element_index st tag_name
  let element_index := gei.1
  let st₁ := gei.2
  let generated_id := generate_id cfg (idCtx filename st₁ tag_name attrs children element_index)
  let collided := st₁.processed_ids.contains generated_id
  let rc := resolveCollision st₁ generated_id element_index
  let final_id := rc.1
  let st₂ := rc.2
  let st₃ := { st₂ with journal :=
    st₂.journal ++ [⟨tag_name, generated_id, element_index, collided⟩] }
  (attrs ++ appendedAttrs cfg tag_name attrs children final_id, st₃)

/-- `process_jsx_element` from visitor.rs, acting on the opening
element's pieces.  Only the attribute list and the state can change, so
the result is the new attribute list and the new state. -/
def process_jsx_element (cfg : PluginConfig) (filename : String)
    (st : TraversalState) (name : JSXElementName)
    (attrs : List JSXAttrOrSpread) (children : NodeList) :
    List JSXAttrOrSpread × TraversalState :=
  match get_tag_name name with
  | none => (attrs, st)
  | some tag_name =>
    if ¬ is_html_element tag_name then (attrs, st)
    else if ¬ cfg.should_instrument tag_name then (attrs, st)
    else if cfg.skip_existing ∧ has_attribute attrs cfg.id_attribute then (attrs, st)
    else if cfg.should_skip_component (current_component st) then (attrs, st)
    else instrumentStep cfg filename st tag_name attrs children

/-- Push an enclosing component name (`component_stack.push`). -/
def pushScope (st : TraversalState) (name : String) : TraversalState :=
  { st with component_stack := st.component_stack ++ [name] }

/-- Pop the innermost component name (`component_stack.pop`). -/
def popScope (st : TraversalState) : TraversalState :=
  { st with component_stack := st.component_stack.dropLast }

mutual
/-- The `VisitMut` traversal of visitor.rs: children first, then
`process_jsx_element` for JSX elements; push/visit/pop for
component-named declarations; plain descent for everything else. -/
def visitNode (cfg : PluginConfig) (filename : String)
    (st : TraversalState) : Node → Node × TraversalState
  | .jsxElement name attrs children =>
    let vcs := visitNodeList cfg filename st children
    let pr := process_jsx_element cfg filename vcs.2 name attrs vcs.1
    (.jsxElement name pr.1 vcs.1, pr.2)
  | .jsxText s => (.jsxText s, st)
  | .jsxExprLitStr s => (.jsxExprLitStr s, st)
  | .jsxExprTpl quasis => (.jsxExprTpl quasis, st)
  | .jsxExprOther => (.jsxExprOther, st)
  | .jsxFragment children =>
    let vcs := visitNodeList cfg filename st children
    (.jsxFragment vcs.1, vcs.2)
  | .fnDecl name body =>
    if is_component_name name then
      let vb := visitNodeList cfg filename (pushScope st name) body
      (.fnDecl name vb.1, popScope vb.2)
    else
      let vb := visitNodeList cfg filename st body
      (.fnDecl name vb.1, vb.2)
  | .varDeclFnInit name body =>
    if is_component_name name then
      let vb := visitNodeList cfg filename (pushScope st name) body
      (.varDeclFnInit name vb.1, popScope vb.2)
    else
      let vb := visitNodeList cfg filename st body
      (.varDeclFnInit name vb.1, vb.2)
  | .varDeclOtherInit name body =>
    let vb := visitNodeList cfg filename st body
    (.varDeclOtherInit name vb.1, vb.2)
  | .classDecl name body =>
    if is_component_name name then
      let vb := visitNodeList cfg filename (pushScope st name) body
      (.classDecl name vb.1, popScope vb.2)
    else
      let vb := visitNodeList cfg filename st body
      (.classDecl name vb.1, vb.2)
  | .otherNode children =>
    let vcs := visitNodeList cfg filename st children
    (.otherNode vcs.1, vcs.2)
/-- Traversal of a children vector, threading the state left to right. -/
def visitNodeList (cfg : PluginConfig) (filename : String)
    (st : TraversalState) : NodeList → NodeList × TraversalState
  | .nil => (.nil, st)
  | .cons n ns =>
    let vn := visitNode cfg filename st n
    let vns := visitNodeList cfg filename vn.2 ns
    (.cons vn.1 vns.1, vns.2)
end

/-- One pass over one source unit: fresh state, full traversal, mutated
tree (`process_transform` driving `UIBridgeVisitor` over the program). -/
def runPass (cfg : PluginConfig) (filename : String) (prog : NodeList) : NodeList :=
  (visitNodeList cfg filename initialState prog).1

/-- The final traversal state of one pass. -/
def runState (cfg : PluginConfig) (filename : String) (prog : NodeList) :
    TraversalState :=
  (visitNodeList cfg filename initialState prog).2

/-- Numeric value read back from a digit-character list. -/
def decVal (cs : List Char) : Nat :=
  cs.foldl (fun a c => a * 10 + (c.toNat - 48)) 0

/-- Lowercase hexadecimal digit predicate (`0`-`9`, `a`-`f`). -/
def isLowerHexDigit (c : Char) : Bool :=
  c.isDigit || ('a' ≤ c && c ≤ 'f')

/-- The structural shape every generated identifier has, per
configuration mode: hashed identifiers are `ui-` plus 8 non-hyphen
characters; unhashed identifiers end in `-` plus the tag's type suffix. -/
def GenShape (cfg : PluginConfig) (t g : String) : Prop :=
  if cfg.hash_ids then
    ∃ h : List Char, g.data = 'u' :: 'i' :: '-' :: h ∧ h.length = 8 ∧
      ∀ c ∈ h, isLowerHexDigit c = true
  else
    ∃ pre : List Char, g.data = pre ++ '-' :: (get_element_type_suffix t).data

/-! ## The ghost state and the explicit form of one instrumentation -/

/-- The stack-independent part of the traversal state: counters, issued
identifiers, journal. -/
def ghost (st : TraversalState) :
    List (String × Nat) × List String × List IssuedEntry :=
  (st.element_counters, st.processed_ids, st.journal)

/-! ## The uniqueness invariant -/

/-- Invariant carried through the pass, over the ghost state
`(counters, issued-ID set, journal)`:

* every plainly issued identifier is in the issued-ID set,
* journalled indices are bounded by the current counters,
* journalled tags are HTML-like and generated identifiers have the
  structural `GenShape`,
* same-tag indices strictly increase along the journal, and
* same-tag final identifiers are pairwise distinct. -/
structure UniqInv (cfg : PluginConfig)
    (g : List (String × Nat) × List String × List IssuedEntry) : Prop where
  plains : ∀ e ∈ g.2.2, e.collided = false → e.generated ∈ g.2.1
  counterBound : ∀ e ∈ g.2.2, e.index ≤ lookupCounter g.1 e.tag
  htmlTag : ∀ e ∈ g.2.2, is_html_element e.tag = true
  shape : ∀ e ∈ g.2.2, GenShape cfg e.tag e.generated
  idxLt : g.2.2.Pairwise (fun a b => a.tag = b.tag → a.index < b.index)
  distinct : g.2.2.Pairwise (fun a b => a.tag = b.tag → a.finalId ≠ b.finalId)

/-- Helper: the node at one position of a children vector. -/
def nodeAt : NodeList → Nat → Option Node
  | .nil, _ => none
  | .cons n _, 0 => some n
  | .cons _ ns, k + 1 => nodeAt ns k

/-- Helper: the configured id-attribute value of the element at one
position of a children vector. -/
def idAttrValueAt (cfg : PluginConfig) (prog : NodeList) (i : Nat) : Option String :=
  match nodeAt prog i with
  | some (.jsxElement _ attrs _) => get_attribute_value attrs cfg.id_attribute
  | _ => none

/-- A tag set containing both `a` and the custom element `link`, whose
type suffixes coincide. -/
def cfgLinkTags : PluginConfig := { defaultConfig with elements := ["a", "link"] }

/-- A bare anchor element. -/
def anchorElem : Node := .jsxElement (.ident "a") [] .nil

/-- A bare `link` custom element. -/
def linkElem : Node := .jsxElement (.ident "link") [] .nil

/-- Two anchors and two `link` elements, interleaved. -/
def progC1 : NodeList :=
  .cons anchorElem (.cons linkElem (.cons anchorElem (.cons linkElem .nil)))

/-- The per-tag-counter invariant: for every tag, the journalled indices
of that tag are exactly `1, 2, …, counter`. -/
def CounterInv (g : List (String × Nat) × List String × List IssuedEntry) : Prop :=
  ∀ t, ((g.2.2.filter (fun e => e.tag == t)).map IssuedEntry.index) =
    List.range' 1 (lookupCounter g.1 t)

/-- A button already carrying the default id attribute. -/
def btnWithId : Node :=
  .jsxElement (.ident "button") [mkAttr "data-ui-id" "existing"] .nil

/-- A bare button. -/
def btnPlain : Node := .jsxElement (.ident "button") [] .nil

/-- A unit whose first button is already instrumented. -/
def progC3 : NodeList := .cons btnWithId (.cons btnPlain .nil)

/-- Helper: the configured type-attribute value of the element at one
position of a children vector. -/
def typeAttrValueAt (cfg : PluginConfig) (prog : NodeList) (i : Nat) : Option String :=
  match nodeAt prog i with
  | some (.jsxElement _ attrs _) => get_attribute_value attrs cfg.type_attribute
  | _ => none

/-! ## Claim fixtures -/

/-- A context with an empty pre-existing id and a non-empty aria-label. -/
def ctxC5 : IdContext where
  component_name := none
  file_path := "f"
  tag_name := "button"
  text_content := none
  aria_label := some "hello"
  placeholder := none
  title := none
  existing_id := some ""
  element_index := 1

/-- A bare button context. -/
def ctxBtn : IdContext where
  component_name := none
  file_path := "f"
  tag_name := "button"
  text_content := none
  aria_label := none
  placeholder := none
  title := none
  existing_id := none
  element_index := 1

/-- A custom prefix together with identifier hashing. -/
def cfgApp : PluginConfig := { defaultConfig with id_prefix := "app", hash_ids := true }

/-- Default configuration with identifier hashing. -/
def cfgHash : PluginConfig := { defaultConfig with hash_ids := true }

/-- An input element with a declared `type="email"`. -/
def inputEmail : Node :=
  .jsxElement (.ident "input") [mkAttr "type" "email"] .nil

/-- Two bare buttons. -/
def progC2 : NodeList := .cons btnPlain (.cons btnPlain .nil)

/-- Default configuration with the allow-list `["OnlyThis"]`. -/
def cfgOnly : PluginConfig := { defaultConfig with only_in_components := ["OnlyThis"] }

/-- A state whose component stack holds `NotThis`. -/
def stNotThis : TraversalState := ⟨["NotThis"], [], [], []⟩

/-- A state that has already issued `ui-button`. -/
def stIssuedBtn : TraversalState := ⟨[], [], ["ui-button"], []⟩

/-- Default configuration with `skip-existing` off. -/
def cfgNoSkip : PluginConfig := { defaultConfig with skip_existing := false }

/-- An attribute list already carrying `data-ui-id`. -/
def attrsC10 : List JSXAttrOrSpread := [mkAttr "data-ui-id" "existing"]

/-! ## Theorems -/

/-! ## Toolkit: decimal rendering -/

/-- Fuel irrelevance for `decCharsAux`. -/
theorem decCharsAux_congr : ∀ f g n, n < f → n < g → decCharsAux f n = decCharsAux g n := by
  intro f
  induction f with
  | zero => omega
  | succ f ih =>
    intro g n hf hg
    match g, hg with
    | g + 1, _ =>
      simp only [decCharsAux]
      by_cases h : n < 10
      · simp [h]
      · have hd : n / 10 < n := Nat.div_lt_self (by omega) (by omega)
        simp only [h, if_false]
        rw [ih (g := g) (n := n / 10) (by omega) (by omega)]

/-- The recurrence of `decChars`. -/
theorem decChars_eq (n : Nat) :
    decChars n =
      if n < 10 then [decDigitChar n]
      else decChars (n / 10) ++ [decDigitChar (n % 10)] := by
  by_cases h : n < 10
  · simp [decChars, decCharsAux, h]
  · have hd : n / 10 < n := Nat.div_lt_self (by omega) (by omega)
    simp only [h, if_false]
    show decCharsAux (n + 1) n = decChars (n / 10) ++ [decDigitChar (n % 10)]
    conv_lhs => rw [decCharsAux]
    rw [if_neg h]
    have hc : decCharsAux n (n / 10) = decCharsAux (n / 10 + 1) (n / 10) :=
      decCharsAux_congr n (n / 10 + 1) (n / 10) (by omega) (by omega)
    rw [hc]
    rfl

theorem decVal_append (xs : List Char) (c : Char) :
    decVal (xs ++ [c]) = decVal xs * 10 + (c.toNat - 48) := by
  simp [decVal]

theorem decDigitChar_toNat (d : Nat) (h : d < 10) : (decDigitChar d).toNat = 48 + d := by
  interval_cases d <;> decide

/-- `decChars` renders the value it was given. -/
theorem decVal_decChars (n : Nat) : decVal (decChars n) = n := by
  induction n using Nat.strong_induction_on with
  | _ n ih =>
    rw [decChars_eq]
    by_cases h : n < 10
    · simp [h, decVal, decDigitChar_toNat n h]
    · have hd : n / 10 < n := Nat.div_lt_self (by omega) (by omega)
      simp only [h, if_false]
      rw [decVal_append, ih (n / 10) hd,
        decDigitChar_toNat (n % 10) (Nat.mod_lt n (by omega))]
      omega

/-- Decimal renderings of distinct numbers differ. -/
theorem natToDec_injective {m n : Nat} (h : natToDec m = natToDec n) : m = n := by
  have hd : decChars m = decChars n := by
    have := h
    unfold natToDec at this
    injection this
  calc m = decVal (decChars m) := (decVal_decChars m).symm
    _ = decVal (decChars n) := by rw [hd]
    _ = n := decVal_decChars n

theorem decDigitChar_isDigit (d : Nat) : (decDigitChar d).isDigit = true := by
  unfold decDigitChar
  split <;> decide

/-- Every character of a decimal rendering is a digit. -/
theorem decChars_isDigit (n : Nat) : ∀ c ∈ decChars n, c.isDigit = true := by
  induction n using Nat.strong_induction_on with
  | _ n ih =>
    rw [decChars_eq]
    by_cases h : n < 10
    · simp only [h, if_true, List.mem_singleton]
      intro c hc
      subst hc
      exact decDigitChar_isDigit n
    · have hd : n / 10 < n := Nat.div_lt_self (by omega) (by omega)
      simp only [h, if_false]
      intro c hc
      rcases List.mem_append.mp hc with h1 | h2
      · exact ih (n / 10) hd c h1
      · rw [List.mem_singleton.mp h2]
        exact decDigitChar_isDigit (n % 10)

theorem decChars_ne_nil (n : Nat) : decChars n ≠ [] := by
  rw [decChars_eq]
  by_cases h : n < 10 <;> simp [h]

/-- A digit character is not a hyphen. -/
theorem isDigit_ne_hyphen {c : Char} (h : c.isDigit = true) : c ≠ '-' := by
  intro hc
  subst hc
  simp at h

theorem hyphen_not_mem_decChars (n : Nat) : '-' ∉ decChars n := by
  intro h
  exact isDigit_ne_hyphen (decChars_isDigit n '-' h) rfl

/-! ## Toolkit: hexadecimal rendering -/

theorem hexCharsAux_congr : ∀ f g n, n < f → n < g → hexCharsAux f n = hexCharsAux g n := by
  intro f
  induction f with
  | zero => omega
  | succ f ih =>
    intro g n hf hg
    match g, hg with
    | g + 1, _ =>
      simp only [hexCharsAux]
      by_cases h : n < 16
      · simp [h]
      · have hd : n / 16 < n := Nat.div_lt_self (by omega) (by omega)
        simp only [h, if_false]
        rw [ih (g := g) (n := n / 16) (by omega) (by omega)]

theorem hexChars_eq (n : Nat) :
    hexChars n =
      if n < 16 then [hexDigitChar n]
      else hexChars (n / 16) ++ [hexDigitChar (n % 16)] := by
  by_cases h : n < 16
  · simp [hexChars, hexCharsAux, h]
  · have hd : n / 16 < n := Nat.div_lt_self (by omega) (by omega)
    simp only [h, if_false]
    show hexCharsAux (n + 1) n = hexChars (n / 16) ++ [hexDigitChar (n % 16)]
    conv_lhs => rw [hexCharsAux]
    rw [if_neg h]
    have hc : hexCharsAux n (n / 16) = hexCharsAux (n / 16 + 1) (n / 16) :=
      hexCharsAux_congr n (n / 16 + 1) (n / 16) (by omega) (by omega)
    rw [hc]
    rfl

theorem hexDigitChar_isHex (d : Nat) : isLowerHexDigit (hexDigitChar d) = true := by
  unfold hexDigitChar
  split <;> decide

theorem hexChars_isHex (n : Nat) : ∀ c ∈ hexChars n, isLowerHexDigit c = true := by
  induction n using Nat.strong_induction_on with
  | _ n ih =>
    rw [hexChars_eq]
    by_cases h : n < 16
    · simp only [h, if_true, List.mem_singleton]
      intro c hc
      subst hc
      exact hexDigitChar_isHex n
    · have hd : n / 16 < n := Nat.div_lt_self (by omega) (by omega)
      simp only [h, if_false]
      intro c hc
      rcases List.mem_append.mp hc with h1 | h2
      · exact ih (n / 16) hd c h1
      · rw [List.mem_singleton.mp h2]
        exact hexDigitChar_isHex (n % 16)

/-- Digit-count bound of the hexadecimal rendering. -/
theorem hexChars_length_le : ∀ k n, 0 < k → n < 16 ^ k → (hexChars n).length ≤ k := by
  intro k
  induction k with
  | zero => omega
  | succ k ih =>
    intro n _ hb
    rw [hexChars_eq]
    by_cases h : n < 16
    · simp [h]
    · have hk : 0 < k := by
        rcases Nat.eq_zero_or_pos k with hk0 | hk0
        · subst hk0
          norm_num at hb
          exact absurd hb h
        · exact hk0
      have hdiv : n / 16 < 16 ^ k := by
        rw [Nat.div_lt_iff_lt_mul (by omega)]
        calc n < 16 ^ (k + 1) := hb
          _ = 16 ^ k * 16 := by ring
      simp only [h, if_false, List.length_append, List.length_singleton]
      have := ih (n / 16) hk hdiv
      omega

/-- `hexPad8` of a 32-bit value is exactly 8 hexadecimal characters. -/
theorem hexPad8_spec (v : Nat) (hv : v < 2 ^ 32) :
    (hexPad8 v).data.length = 8 ∧ ∀ c ∈ (hexPad8 v).data, isLowerHexDigit c = true := by
  have hlen : (hexChars v).length ≤ 8 := by
    refine hexChars_length_le 8 v (by omega) ?_
    norm_num at hv ⊢
    omega
  constructor
  · simp only [hexPad8, List.length_append, List.length_replicate]
    omega
  · intro c hc
    simp only [hexPad8] at hc
    rcases List.mem_append.mp hc with h1 | h2
    · rw [List.eq_of_mem_replicate h1]
      decide
    · exact hexChars_isHex v c h2

/-! ## Toolkit: hyphen-separated string surgery

The identifier disambiguation appends `-{index}` to an already-issued
identifier.  These lemmas recover the two halves of such a string from
its last hyphen, and show that an identifier ending in a per-tag suffix
can never coincide with a disambiguated identifier of the same tag. -/

/-- A lowercase letter is not a digit. -/
theorem lower_not_digit {c : Char} (h1 : c.isLower = true) : c.isDigit = false := by
  by_contra hcon
  have h2 : c.isDigit = true := by
    cases hd : c.isDigit
    · exact absurd hd hcon
    · rfl
  simp [Char.isLower, Char.isDigit] at h1 h2
  obtain ⟨a1, _⟩ := h1
  obtain ⟨_, b2⟩ := h2
  rw [UInt32.le_def, BitVec.le_def] at a1 b2
  have e1 : (97 : UInt32).toBitVec.toNat = 97 := rfl
  have e2 : (57 : UInt32).toBitVec.toNat = 57 := rfl
  omega

/-- Splitting at the last hyphen is unambiguous: if the parts after the
hyphen are hyphen-free, both halves agree. -/
theorem lastHyphenSplit : ∀ (a c b d : List Char), '-' ∉ b → '-' ∉ d →
    a ++ '-' :: b = c ++ '-' :: d → a = c ∧ b = d := by
  intro a
  induction a with
  | nil =>
    intro c b d hb hd heq
    match c with
    | [] =>
      simp only [List.nil_append, List.cons.injEq] at heq
      exact ⟨rfl, heq.2⟩
    | x :: c' =>
      simp only [List.nil_append, List.cons_append, List.cons.injEq] at heq
      exfalso
      apply hb
      rw [heq.2]
      exact List.mem_append.mpr (Or.inr (List.mem_cons_self _ _))
  | cons y a' ih =>
    intro c b d hb hd heq
    match c with
    | [] =>
      simp only [List.nil_append, List.cons_append, List.cons.injEq] at heq
      exfalso
      apply hd
      rw [← heq.2]
      exact List.mem_append.mpr (Or.inr (List.mem_cons_self _ _))
    | x :: c' =>
      simp only [List.cons_append, List.cons.injEq] at heq
      obtain ⟨hyx, heq'⟩ := heq
      obtain ⟨h1, h2⟩ := ih c' b d hb hd heq'
      exact ⟨by rw [hyx, h1], h2⟩

/-- Any list containing a hyphen splits at its last hyphen. -/
theorem exists_last_hyphen : ∀ s : List Char, '-' ∈ s →
    ∃ s₁ s₂, s = s₁ ++ '-' :: s₂ ∧ '-' ∉ s₂ := by
  intro s
  induction s with
  | nil => intro h; simp at h
  | cons c cs ih =>
    intro h
    by_cases hc : '-' ∈ cs
    · obtain ⟨s₁, s₂, heq, hn⟩ := ih hc
      exact ⟨c :: s₁, s₂, by rw [List.cons_append, heq], hn⟩
    · have hce : c = '-' := by
        rcases List.mem_cons.mp h with h1 | h2
        · exact h1.symm
        · exact absurd h2 hc
      exact ⟨[], cs, by rw [hce, List.nil_append], hc⟩

/-- Core exclusion (by strong induction on the suffix): a string of the
form `Y-s` never equals `X-s-d` when `s` starts with a lowercase letter
and `d` is a non-empty digit string. -/
theorem plain_ne_disamb_aux : ∀ m : Nat, ∀ s : List Char, s.length ≤ m →
    (∃ c₀ rest, s = c₀ :: rest ∧ c₀.isLower = true) →
    ∀ X Y d : List Char, d ≠ [] → (∀ c ∈ d, c.isDigit = true) →
    Y ++ '-' :: s ≠ X ++ '-' :: (s ++ '-' :: d) := by
  intro m
  induction m with
  | zero =>
    intro s hlen hhead
    obtain ⟨c₀, rest, hs, _⟩ := hhead
    subst hs
    simp at hlen
  | succ m ih =>
    intro s hlen hhead X Y d hdne hdig heq
    obtain ⟨c₀, rest, hs, hlow⟩ := hhead
    have hdnh : '-' ∉ d := by
      intro hc
      have := hdig '-' hc
      simp at this
    by_cases hmem : '-' ∈ s
    · obtain ⟨s₁, s₂, hsplit, hs₂⟩ := exists_last_hyphen s hmem
      have hs₁ne : s₁ ≠ [] := by
        intro h0
        subst h0
        rw [List.nil_append] at hsplit
        rw [hsplit] at hs
        have : c₀ = '-' := (List.cons.injEq _ _ _ _ ▸ hs).1.symm
        rw [this] at hlow
        simp at hlow
      have heq' : (Y ++ '-' :: s₁) ++ '-' :: s₂ =
          (X ++ '-' :: (s₁ ++ '-' :: s₂)) ++ '-' :: d := by
        rw [hsplit] at heq
        simpa [List.append_assoc] using heq
      obtain ⟨h1, h2⟩ := lastHyphenSplit (Y ++ '-' :: s₁)
        (X ++ '-' :: (s₁ ++ '-' :: s₂)) s₂ d hs₂ hdnh heq'
      have hs₁head : ∃ c₁ rest₁, s₁ = c₁ :: rest₁ ∧ c₁.isLower = true := by
        match s₁, hs₁ne with
        | c :: t, _ =>
          rw [hsplit, List.cons_append] at hs
          have : c₀ = c := (List.cons.injEq _ _ _ _ ▸ hs).1.symm
          exact ⟨c, t, rfl, this ▸ hlow⟩
      have hs₁len : s₁.length ≤ m := by
        have hlen2 : s.length = s₁.length + 1 + s₂.length := by
          rw [hsplit]
          simp
          omega
        omega
      refine ih s₁ hs₁len hs₁head X Y s₂ ?_ ?_ h1
      · rw [h2]
        exact hdne
      · intro c hc
        exact hdig c (h2 ▸ hc)
    · have heq' : Y ++ '-' :: s = (X ++ '-' :: s) ++ '-' :: d := by
        simpa [List.append_assoc] using heq
      obtain ⟨_, h2⟩ := lastHyphenSplit Y (X ++ '-' :: s) s d hmem hdnh heq'
      have hc₀d : c₀ ∈ d := by
        rw [← h2, hs]
        exact List.mem_cons_self _ _
      have := hdig c₀ hc₀d
      rw [lower_not_digit hlow] at this
      exact absurd this (by simp)

/-- A plainly issued identifier `Y-s` and a disambiguated identifier
`X-s-d` are always distinct (s a suffix starting with a lowercase
letter, d a non-empty digit string). -/
theorem plain_ne_disamb (s : List Char)
    (hhead : ∃ c₀ rest, s = c₀ :: rest ∧ c₀.isLower = true)
    (X Y d : List Char) (hdne : d ≠ []) (hdig : ∀ c ∈ d, c.isDigit = true) :
    Y ++ '-' :: s ≠ X ++ '-' :: (s ++ '-' :: d) :=
  plain_ne_disamb_aux s.length s (Nat.le_refl _) hhead X Y d hdne hdig

/-! ## Shape of generated identifiers -/

theorem joinDash_cons_append_last (s : String) :
    ∀ (rest : List String) (p : String),
      joinDash ((p :: rest) ++ [s]) = joinDash (p :: rest) ++ "-" ++ s := by
  intro rest
  induction rest with
  | nil => intro p; rfl
  | cons q rest ih =>
    intro p
    calc joinDash ((p :: q :: rest) ++ [s])
        = p ++ "-" ++ joinDash ((q :: rest) ++ [s]) := rfl
      _ = p ++ "-" ++ (joinDash (q :: rest) ++ "-" ++ s) := by rw [ih q]
      _ = (p ++ "-" ++ joinDash (q :: rest)) ++ "-" ++ s := by
          simp [String.append_assoc]
      _ = joinDash (p :: q :: rest) ++ "-" ++ s := rfl

theorem joinDash_parts_data (p : String) (rest : List String) (s : String) :
    (joinDash ((p :: rest) ++ [s])).data =
      (joinDash (p :: rest)).data ++ '-' :: s.data := by
  rw [joinDash_cons_append_last, String.data_append, String.data_append]
  simp

/-- For an HTML-like tag (lowercase first character), the type suffix
starts with a lowercase letter. -/
theorem suffix_head_lower (t : String) (h : is_html_element t = true) :
    ∃ c₀ rest, (get_element_type_suffix t).data = c₀ :: rest ∧ c₀.isLower = true := by
  unfold get_element_type_suffix
  split
  · exact ⟨'l', ['i', 'n', 'k'], rfl, by decide⟩
  · exact ⟨'b', ['u', 't', 't', 'o', 'n'], rfl, by decide⟩
  · exact ⟨'i', ['n', 'p', 'u', 't'], rfl, by decide⟩
  · exact ⟨'d', ['r', 'o', 'p', 'd', 'o', 'w', 'n'], rfl, by decide⟩
  · exact ⟨'t', ['e', 'x', 't', 'a', 'r', 'e', 'a'], rfl, by decide⟩
  · exact ⟨'f', ['o', 'r', 'm'], rfl, by decide⟩
  · unfold is_html_element at h
    match ht : t.data with
    | [] => rw [ht] at h; simp at h
    | c :: cs =>
      rw [ht] at h
      simp at h
      exact ⟨c, cs, rfl, h⟩

theorem hash_id_data (id : String) :
    (hash_id id).data =
      'u' :: 'i' :: '-' :: (hexPad8 (defaultHasherStr id % 2 ^ 32)).data := by
  unfold hash_id
  rw [String.data_append]
  rfl

/-- Every identifier `generate_id` produces has the `GenShape` of its
tag and configuration. -/
theorem generate_id_shape (cfg : PluginConfig) (ctx : IdContext) :
    GenShape cfg ctx.tag_name (generate_id cfg ctx) := by
  unfold GenShape generate_id
  by_cases h : cfg.hash_ids
  · simp only [h, if_true]
    rw [hash_id_data]
    refine ⟨(hexPad8 (defaultHasherStr _ % 2 ^ 32)).data, rfl, ?_, ?_⟩
    · exact (hexPad8_spec _ (Nat.mod_lt _ (by norm_num))).1
    · exact (hexPad8_spec (defaultHasherStr (joinDash
        (idPartsPre cfg ctx ++ [get_element_type_suffix ctx.tag_name])) % 2 ^ 32)
        (Nat.mod_lt _ (by norm_num))).2
  · simp only [h, if_false]
    unfold idPartsPre
    exact ⟨(joinDash (cfg.id_prefix :: (componentPart cfg ctx ++ filePart cfg ctx ++
      descPart ctx))).data, joinDash_parts_data _ _ _⟩

/-! ## Distinctness of final identifiers (same tag) -/

theorem final_data (g : String) (i : Nat) :
    (g ++ "-" ++ natToDec i).data = g.data ++ '-' :: decChars i := by
  rw [String.data_append, String.data_append]
  show (g.data ++ ['-']) ++ decChars i = g.data ++ '-' :: decChars i
  simp

/-- A plainly issued identifier never equals a disambiguated identifier
of the same tag (either configuration mode). -/
theorem plain_ne_disamb_final (cfg : PluginConfig) (t : String)
    (hhtml : is_html_element t = true) (g₁ g₂ : String) (i : Nat)
    (hs₁ : GenShape cfg t g₁) (hs₂ : GenShape cfg t g₂) :
    g₁ ≠ g₂ ++ "-" ++ natToDec i := by
  intro heq
  have hdata : g₁.data = g₂.data ++ '-' :: decChars i := by
    rw [heq]
    exact final_data g₂ i
  unfold GenShape at hs₁ hs₂
  by_cases hh : cfg.hash_ids
  · rw [if_pos hh] at hs₁ hs₂
    obtain ⟨h₁, e₁, l₁, _⟩ := hs₁
    obtain ⟨h₂, e₂, l₂, _⟩ := hs₂
    have hlen₁ : g₁.data.length = 11 := by rw [e₁]; simp [l₁]
    have hlen₂ : g₂.data.length = 11 := by rw [e₂]; simp [l₂]
    have hd : 0 < (decChars i).length := List.length_pos.mpr (decChars_ne_nil i)
    have hlen3 : g₁.data.length = g₂.data.length + 1 + (decChars i).length := by
      rw [hdata]
      simp
      omega
    omega
  · rw [if_neg hh] at hs₁ hs₂
    obtain ⟨pre₁, e₁⟩ := hs₁
    obtain ⟨pre₂, e₂⟩ := hs₂
    refine plain_ne_disamb (get_element_type_suffix t).data (suffix_head_lower t hhtml)
      pre₂ pre₁ (decChars i) (decChars_ne_nil i) (decChars_isDigit i) ?_
    rw [← e₁, hdata, e₂]
    simp [List.append_assoc]

/-- Disambiguated identifiers determine their generated identifier and
index. -/
theorem disamb_final_inj (g₁ g₂ : String) (i j : Nat)
    (heq : g₁ ++ "-" ++ natToDec i = g₂ ++ "-" ++ natToDec j) : g₁ = g₂ ∧ i = j := by
  have hdata : g₁.data ++ '-' :: decChars i = g₂.data ++ '-' :: decChars j := by
    rw [← final_data, ← final_data, heq]
  obtain ⟨h1, h2⟩ := lastHyphenSplit _ _ _ _ (hyphen_not_mem_decChars i)
    (hyphen_not_mem_decChars j) hdata
  constructor
  · exact String.ext h1
  · exact natToDec_injective (congrArg String.mk h2)

/-- Same-tag issuance entries with html tags, `GenShape` generated
identifiers, distinct indices, and (when both plain) distinct generated
identifiers, receive distinct final identifiers. -/
theorem final_ne_of_entries (cfg : PluginConfig) (a b : IssuedEntry)
    (htag : a.tag = b.tag)
    (hhtml : is_html_element a.tag = true)
    (hsa : GenShape cfg a.tag a.generated) (hsb : GenShape cfg b.tag b.generated)
    (hidx : a.index ≠ b.index)
    (hplain : a.collided = false → b.collided = false → a.generated ≠ b.generated) :
    a.finalId ≠ b.finalId := by
  have hsb' : GenShape cfg a.tag b.generated := htag ▸ hsb
  unfold IssuedEntry.finalId
  cases ha : a.collided <;> cases hb : b.collided
  · rw [if_neg (by decide), if_neg (by decide)]
    exact hplain ha hb
  · rw [if_neg (by decide), if_pos rfl]
    exact plain_ne_disamb_final cfg a.tag hhtml a.generated b.generated b.index hsa hsb'
  · rw [if_pos rfl, if_neg (by decide)]
    intro heq
    exact plain_ne_disamb_final cfg a.tag hhtml b.generated a.generated a.index hsb' hsa heq.symm
  · rw [if_pos rfl, if_pos rfl]
    intro heq
    exact hidx (disamb_final_inj _ _ _ _ heq).2

/-! ## Counter-map lemmas -/

theorem lookupCounter_set_self (m : List (String × Nat)) (t : String) (v : Nat) :
    lookupCounter (setCounter m t v) t = v := by
  induction m with
  | nil => simp [setCounter, lookupCounter, List.find?]
  | cons p ps ih =>
    by_cases h : p.1 = t
    · simp [setCounter, lookupCounter, List.find?, h]
    · have hb : (p.1 == t) = false := by
        simp [h]
      simp only [setCounter, hb, Bool.false_eq_true, if_false, lookupCounter,
        List.find?, cond_false]
      exact ih

theorem lookupCounter_set_other (m : List (String × Nat)) (t t' : String) (v : Nat)
    (h : t' ≠ t) : lookupCounter (setCounter m t v) t' = lookupCounter m t' := by
  have h2 : ¬(t = t') := fun hc => h hc.symm
  have hbt : (t == t') = false := by simp [h2]
  induction m with
  | nil => simp [setCounter, lookupCounter, List.find?, hbt]
  | cons p ps ih =>
    by_cases hp : p.1 = t
    · have hb : (p.1 == t') = false := by
        simp [hp, h2]
      have hb2 : ((t, v).1 == t') = false := by
        simp [h2]
      simp only [setCounter, hp, beq_self_eq_true, if_true, lookupCounter, List.find?,
        hb, hb2, cond_false]
    · have hb : (p.1 == t) = false := by simp [hp]
      simp only [setCounter, hb, Bool.false_eq_true, if_false, lookupCounter, List.find?]
      cases hq : (p.1 == t')
      · simp only [cond_false]
        exact ih
      · simp only [cond_true]

/-- `idCtx` reads only the component stack of the state, so bumping the
counters does not change it. -/
theorem idCtx_counters (f : String) (st : TraversalState) (M : List (String × Nat))
    (t : String) (attrs : List JSXAttrOrSpread) (children : NodeList) (i : Nat) :
    idCtx f { st with element_counters := M } t attrs children i =
      idCtx f st t attrs children i := rfl

/-- What one instrumentation does to the state, in explicit record
form: the tag's counter is bumped, the generated identifier is recorded
unless it collided, and the issuance is journalled. -/
theorem instrumentStep_snd (cfg : PluginConfig) (f : String) (st : TraversalState)
    (t : String) (attrs : List JSXAttrOrSpread) (children : NodeList) :
    (instrumentStep cfg f st t attrs children).2 =
      (let c := lookupCounter st.element_counters t
       let gen := generate_id cfg (idCtx f st t attrs children (c + 1))
       let collided := st.processed_ids.contains gen
       { component_stack := st.component_stack
         element_counters := setCounter st.element_counters t (c + 1)
         processed_ids := if collided then st.processed_ids else gen :: st.processed_ids
         journal := st.journal ++ [⟨t, gen, c + 1, collided⟩] }) := by
  unfold instrumentStep resolveCollision get_element_index
  by_cases h : generate_id cfg (idCtx f st t attrs children
      (lookupCounter st.element_counters t + 1)) ∈ st.processed_ids
  · simp [idCtx_counters, h]
  · simp [idCtx_counters, h]

/-- What one instrumentation does to the attribute list, in explicit
form: the produced attributes are appended behind the untouched
originals, with the journal entry's final identifier. -/
theorem instrumentStep_fst (cfg : PluginConfig) (f : String) (st : TraversalState)
    (t : String) (attrs : List JSXAttrOrSpread) (children : NodeList) :
    (instrumentStep cfg f st t attrs children).1 =
      (let c := lookupCounter st.element_counters t
       let gen := generate_id cfg (idCtx f st t attrs children (c + 1))
       let collided := st.processed_ids.contains gen
       attrs ++ appendedAttrs cfg t attrs children
         (IssuedEntry.finalId ⟨t, gen, c + 1, collided⟩)) := by
  unfold instrumentStep resolveCollision get_element_index IssuedEntry.finalId
  by_cases h : generate_id cfg (idCtx f st t attrs children
      (lookupCounter st.element_counters t + 1)) ∈ st.processed_ids
  · simp [idCtx_counters, h]
  · simp [idCtx_counters, h]

/-- Case analysis of `process_jsx_element`: either some filter fired and
nothing changed, or all filters passed and the element was instrumented. -/
theorem process_cases (cfg : PluginConfig) (f : String) (st : TraversalState)
    (name : JSXElementName) (attrs : List JSXAttrOrSpread) (children : NodeList) :
    process_jsx_element cfg f st name attrs children = (attrs, st) ∨
    ∃ t, get_tag_name name = some t ∧ is_html_element t = true ∧
      cfg.should_instrument t = true ∧
      ¬(cfg.skip_existing = true ∧ has_attribute attrs cfg.id_attribute = true) ∧
      cfg.should_skip_component (current_component st) = false ∧
      process_jsx_element cfg f st name attrs children =
        instrumentStep cfg f st t attrs children := by
  unfold process_jsx_element
  cases hg : get_tag_name name with
  | none => exact Or.inl rfl
  | some t =>
    by_cases h1 : is_html_element t = true
    · by_cases h2 : cfg.should_instrument t = true
      · by_cases h3 : cfg.skip_existing = true ∧ has_attribute attrs cfg.id_attribute = true
        · left
          simp [h1, h2, h3]
        · by_cases h4 : cfg.should_skip_component (current_component st) = true
          · left
            simp [h1, h2, h3, h4]
          · right
            refine ⟨t, rfl, h1, h2, h3, by simpa using h4, ?_⟩
            simp [h1, h2, h3, h4]
      · left
        simp [h1, h2]
    · left
      simp [h1]

/-- One instrumentation preserves the uniqueness invariant. -/
theorem instrumentStep_uniqInv (cfg : PluginConfig) (f : String)
    (st : TraversalState) (t : String) (attrs : List JSXAttrOrSpread)
    (children : NodeList) (hhtml : is_html_element t = true)
    (hinv : UniqInv cfg (ghost st)) :
    UniqInv cfg (ghost (instrumentStep cfg f st t attrs children).2) := by
  rw [instrumentStep_snd]
  set c := lookupCounter st.element_counters t with hc
  set gen := generate_id cfg (idCtx f st t attrs children (c + 1)) with hgen
  have hboundlt : ∀ e ∈ st.journal, e.tag = t → e.index < c + 1 := by
    intro e he het
    have hcb := hinv.counterBound e he
    simp only [ghost] at hcb
    rw [het] at hcb
    omega
  have hshapeNew : ∀ b : Bool, GenShape cfg
      (IssuedEntry.mk t gen (c + 1) b).tag (IssuedEntry.mk t gen (c + 1) b).generated := by
    intro b
    exact generate_id_shape cfg (idCtx f st t attrs children (c + 1))
  by_cases hmem : gen ∈ st.processed_ids
  all_goals
    first
    | (have hcol : st.processed_ids.contains gen = true := by simpa using hmem)
    | (have hcol : st.processed_ids.contains gen = false := by simpa using hmem)
  all_goals simp only [ghost, hcol, if_true, Bool.false_eq_true, if_false]
  all_goals constructor
  · -- plains, collided entry appended, set unchanged
    intro e he hef
    rcases List.mem_append.mp he with hold | hnew
    · exact hinv.plains e hold hef
    · rw [List.mem_singleton.mp hnew] at hef
      simp at hef
  · intro e he
    rcases List.mem_append.mp he with hold | hnew
    · by_cases het : e.tag = t
      · rw [het, lookupCounter_set_self]
        have hcb := hinv.counterBound e hold
        simp only [ghost] at hcb
        rw [het] at hcb
        omega
      · rw [lookupCounter_set_other _ _ _ _ het]
        exact hinv.counterBound e hold
    · rw [List.mem_singleton.mp hnew]
      simp [lookupCounter_set_self]
  · intro e he
    rcases List.mem_append.mp he with hold | hnew
    · exact hinv.htmlTag e hold
    · rw [List.mem_singleton.mp hnew]
      exact hhtml
  · intro e he
    rcases List.mem_append.mp he with hold | hnew
    · exact hinv.shape e hold
    · rw [List.mem_singleton.mp hnew]
      exact hshapeNew true
  · refine List.pairwise_append.mpr ⟨hinv.idxLt, List.pairwise_singleton _ _, ?_⟩
    intro a ha b hb het
    rw [List.mem_singleton.mp hb] at het ⊢
    exact hboundlt a ha het
  · refine List.pairwise_append.mpr ⟨hinv.distinct, List.pairwise_singleton _ _, ?_⟩
    intro a ha b hb het
    rw [List.mem_singleton.mp hb] at het ⊢
    refine final_ne_of_entries cfg a _ het (hinv.htmlTag a ha) (hinv.shape a ha)
      (het ▸ hshapeNew true) ?_ ?_
    · have := hboundlt a ha het
      simp only []
      omega
    · intro hac hbc
      simp at hbc
  · -- non-colliding branch: plains with the identifier recorded
    intro e he hef
    rcases List.mem_append.mp he with hold | hnew
    · exact List.mem_cons_of_mem _ (hinv.plains e hold hef)
    · rw [List.mem_singleton.mp hnew]
      exact List.mem_cons_self _ _
  · intro e he
    rcases List.mem_append.mp he with hold | hnew
    · by_cases het : e.tag = t
      · rw [het, lookupCounter_set_self]
        have hcb := hinv.counterBound e hold
        simp only [ghost] at hcb
        rw [het] at hcb
        omega
      · rw [lookupCounter_set_other _ _ _ _ het]
        exact hinv.counterBound e hold
    · rw [List.mem_singleton.mp hnew]
      simp [lookupCounter_set_self]
  · intro e he
    rcases List.mem_append.mp he with hold | hnew
    · exact hinv.htmlTag e hold
    · rw [List.mem_singleton.mp hnew]
      exact hhtml
  · intro e he
    rcases List.mem_append.mp he with hold | hnew
    · exact hinv.shape e hold
    · rw [List.mem_singleton.mp hnew]
      exact hshapeNew false
  · refine List.pairwise_append.mpr ⟨hinv.idxLt, List.pairwise_singleton _ _, ?_⟩
    intro a ha b hb het
    rw [List.mem_singleton.mp hb] at het ⊢
    exact hboundlt a ha het
  · refine List.pairwise_append.mpr ⟨hinv.distinct, List.pairwise_singleton _ _, ?_⟩
    intro a ha b hb het
    rw [List.mem_singleton.mp hb] at het ⊢
    refine final_ne_of_entries cfg a _ het (hinv.htmlTag a ha) (hinv.shape a ha)
      (het ▸ hshapeNew false) ?_ ?_
    · have := hboundlt a ha het
      simp only []
      omega
    · intro hac _
      have hmemA : a.generated ∈ st.processed_ids := hinv.plains a ha hac
      intro hcontra
      simp only [] at hcontra
      rw [hcontra] at hmemA
      exact hmem hmemA

/-- The state after `process_jsx_element` keeps the component stack. -/
theorem process_stack (cfg : PluginConfig) (f : String) (st : TraversalState)
    (name : JSXElementName) (attrs : List JSXAttrOrSpread) (children : NodeList) :
    (process_jsx_element cfg f st name attrs children).2.component_stack =
      st.component_stack := by
  rcases process_cases cfg f st name attrs children with h | ⟨t, _, _, _, _, _, h⟩
  · rw [h]
  · rw [h, instrumentStep_snd]

mutual
/-- Visiting a node restores the component stack (push/pop balance). -/
theorem visitNode_stack (cfg : PluginConfig) (f : String) :
    ∀ (n : Node) (st : TraversalState),
      (visitNode cfg f st n).2.component_stack = st.component_stack
  | .jsxElement name attrs children, st => by
    simp only [visitNode]
    rw [process_stack, visitNodeList_stack cfg f children st]
  | .jsxText s, st => rfl
  | .jsxExprLitStr s, st => rfl
  | .jsxExprTpl quasis, st => rfl
  | .jsxExprOther, st => rfl
  | .jsxFragment children, st => by
    simp only [visitNode]
    rw [visitNodeList_stack cfg f children st]
  | .fnDecl name body, st => by
    simp only [visitNode]
    by_cases hn : is_component_name name = true
    · simp only [hn, if_true, popScope]
      rw [visitNodeList_stack cfg f body (pushScope st name)]
      simp [pushScope]
    · simp only [hn, Bool.false_eq_true, if_false]
      rw [visitNodeList_stack cfg f body st]
  | .varDeclFnInit name body, st => by
    simp only [visitNode]
    by_cases hn : is_component_name name = true
    · simp only [hn, if_true, popScope]
      rw [visitNodeList_stack cfg f body (pushScope st name)]
      simp [pushScope]
    · simp only [hn, Bool.false_eq_true, if_false]
      rw [visitNodeList_stack cfg f body st]
  | .varDeclOtherInit name body, st => by
    simp only [visitNode]
    rw [visitNodeList_stack cfg f body st]
  | .classDecl name body, st => by
    simp only [visitNode]
    by_cases hn : is_component_name name = true
    · simp only [hn, if_true, popScope]
      rw [visitNodeList_stack cfg f body (pushScope st name)]
      simp [pushScope]
    · simp only [hn, Bool.false_eq_true, if_false]
      rw [visitNodeList_stack cfg f body st]
  | .otherNode children, st => by
    simp only [visitNode]
    rw [visitNodeList_stack cfg f children st]
/-- Visiting a children vector restores the component stack. -/
theorem visitNodeList_stack (cfg : PluginConfig) (f : String) :
    ∀ (ns : NodeList) (st : TraversalState),
      (visitNodeList cfg f st ns).2.component_stack = st.component_stack
  | .nil, st => rfl
  | .cons n ns, st => by
    simp only [visitNodeList]
    rw [visitNodeList_stack cfg f ns _, visitNode_stack cfg f n st]
end

mutual
/-- Any property of the ghost state preserved by `process_jsx_element`
is preserved by visiting a node (declaration nodes only push and pop
the component stack, which the ghost state does not see). -/
theorem visitNode_preserves (cfg : PluginConfig) (f : String)
    (Φ : List (String × Nat) × List String × List IssuedEntry → Prop)
    (hproc : ∀ st name attrs children, Φ (ghost st) →
      Φ (ghost (process_jsx_element cfg f st name attrs children).2)) :
    ∀ (n : Node) (st : TraversalState), Φ (ghost st) →
      Φ (ghost (visitNode cfg f st n).2)
  | .jsxElement name attrs children, st, hst => by
    simp only [visitNode]
    exact hproc _ name attrs _
      (visitNodeList_preserves cfg f Φ hproc children st hst)
  | .jsxText s, st, hst => hst
  | .jsxExprLitStr s, st, hst => hst
  | .jsxExprTpl quasis, st, hst => hst
  | .jsxExprOther, st, hst => hst
  | .jsxFragment children, st, hst => by
    simp only [visitNode]
    exact visitNodeList_preserves cfg f Φ hproc children st hst
  | .fnDecl name body, st, hst => by
    simp only [visitNode]
    by_cases hn : is_component_name name = true
    · simp only [hn, if_true]
      exact visitNodeList_preserves cfg f Φ hproc body (pushScope st name) hst
    · simp only [hn, Bool.false_eq_true, if_false]
      exact visitNodeList_preserves cfg f Φ hproc body st hst
  | .varDeclFnInit name body, st, hst => by
    simp only [visitNode]
    by_cases hn : is_component_name name = true
    · simp only [hn, if_true]
      exact visitNodeList_preserves cfg f Φ hproc body (pushScope st name) hst
    · simp only [hn, Bool.false_eq_true, if_false]
      exact visitNodeList_preserves cfg f Φ hproc body st hst
  | .varDeclOtherInit name body, st, hst => by
    simp only [visitNode]
    exact visitNodeList_preserves cfg f Φ hproc body st hst
  | .classDecl name body, st, hst => by
    simp only [visitNode]
    by_cases hn : is_component_name name = true
    · simp only [hn, if_true]
      exact visitNodeList_preserves cfg f Φ hproc body (pushScope st name) hst
    · simp only [hn, Bool.false_eq_true, if_false]
      exact visitNodeList_preserves cfg f Φ hproc body st hst
  | .otherNode children, st, hst => by
    simp only [visitNode]
    exact visitNodeList_preserves cfg f Φ hproc children st hst
/-- List version of `visitNode_preserves`. -/
theorem visitNodeList_preserves (cfg : PluginConfig) (f : String)
    (Φ : List (String × Nat) × List String × List IssuedEntry → Prop)
    (hproc : ∀ st name attrs children, Φ (ghost st) →
      Φ (ghost (process_jsx_element cfg f st name attrs children).2)) :
    ∀ (ns : NodeList) (st : TraversalState), Φ (ghost st) →
      Φ (ghost (visitNodeList cfg f st ns).2)
  | .nil, st, hst => hst
  | .cons n ns, st, hst => by
    simp only [visitNodeList]
    exact visitNodeList_preserves cfg f Φ hproc ns _
      (visitNode_preserves cfg f Φ hproc n st hst)
end

/-- `process_jsx_element` preserves the uniqueness invariant. -/
theorem process_uniqInv (cfg : PluginConfig) (f : String) :
    ∀ st name attrs children, UniqInv cfg (ghost st) →
      UniqInv cfg (ghost (process_jsx_element cfg f st name attrs children).2) := by
  intro st name attrs children hinv
  rcases process_cases cfg f st name attrs children with h | ⟨t, _, hhtml, _, _, _, h⟩
  · rw [h]
    exact hinv
  · rw [h]
    exact instrumentStep_uniqInv cfg f st t attrs children hhtml hinv

/-- The fresh per-unit state satisfies the uniqueness invariant. -/
theorem uniqInv_initial (cfg : PluginConfig) : UniqInv cfg (ghost initialState) := by
  constructor <;> simp [ghost, initialState]

/-- `process_jsx_element` preserves the per-tag-counter invariant. -/
theorem process_counterInv (cfg : PluginConfig) (f : String) :
    ∀ st name attrs children, CounterInv (ghost st) →
      CounterInv (ghost (process_jsx_element cfg f st name attrs children).2) := by
  intro st name attrs children hinv
  rcases process_cases cfg f st name attrs children with h | ⟨t, _, _, _, _, _, h⟩
  · rw [h]
    exact hinv
  · rw [h, instrumentStep_snd]
    intro t'
    simp only [ghost, List.filter_append, List.map_append]
    by_cases het : t' = t
    · subst het
      have hf : (List.filter (fun e => e.tag == t')
          [(⟨t', generate_id cfg (idCtx f st t' attrs children
            (lookupCounter st.element_counters t' + 1)),
            lookupCounter st.element_counters t' + 1,
            st.processed_ids.contains (generate_id cfg (idCtx f st t' attrs children
              (lookupCounter st.element_counters t' + 1)))⟩ : IssuedEntry)]) =
          [⟨t', generate_id cfg (idCtx f st t' attrs children
            (lookupCounter st.element_counters t' + 1)),
            lookupCounter st.element_counters t' + 1,
            st.processed_ids.contains (generate_id cfg (idCtx f st t' attrs children
              (lookupCounter st.element_counters t' + 1)))⟩] := by
        simp
      rw [hf, lookupCounter_set_self]
      have := hinv t'
      simp only [ghost] at this
      rw [List.range'_concat]
      simp only [List.map_cons, List.map_nil]
      rw [this]
      simp [Nat.add_comm]
    · have hf : (List.filter (fun e => e.tag == t')
          [(⟨t, generate_id cfg (idCtx f st t attrs children
            (lookupCounter st.element_counters t + 1)),
            lookupCounter st.element_counters t + 1,
            st.processed_ids.contains (generate_id cfg (idCtx f st t attrs children
              (lookupCounter st.element_counters t + 1)))⟩ : IssuedEntry)]) = [] := by
        simp
        intro hcon
        exact het hcon.symm
      rw [hf, lookupCounter_set_other _ _ _ _ het]
      have := hinv t'
      simp only [ghost] at this
      simpa using this

/-- The fresh per-unit state satisfies the per-tag-counter invariant. -/
theorem counterInv_initial : CounterInv (ghost initialState) := by
  intro t
  simp [ghost, initialState, lookupCounter, List.find?]

/-- The id attribute appended by an instrumentation is found by
`has_attribute`. -/
theorem has_attribute_appended (cfg : PluginConfig) (t : String)
    (attrs : List JSXAttrOrSpread) (children : NodeList) (fid : String) :
    has_attribute (attrs ++ appendedAttrs cfg t attrs children fid)
      cfg.id_attribute = true := by
  simp only [has_attribute, appendedAttrs, mkAttr, List.any_append]
  apply Bool.or_eq_true_iff.mpr
  right
  simp
  left
  simp [attrNamed]

/-- `process_jsx_element` with a member-expression or namespaced tag is
a no-op. -/
theorem process_skip_tag_none (cfg : PluginConfig) (f : String)
    (u : TraversalState) (name : JSXElementName)
    (attrs : List JSXAttrOrSpread) (children : NodeList)
    (hg : get_tag_name name = none) :
    process_jsx_element cfg f u name attrs children = (attrs, u) := by
  unfold process_jsx_element
  simp [hg]

/-- `process_jsx_element` is a no-op whenever one of the four filters
fires. -/
theorem process_skips (cfg : PluginConfig) (f : String) (u : TraversalState)
    (name : JSXElementName) (attrs : List JSXAttrOrSpread) (children : NodeList)
    (t : String) (hg : get_tag_name name = some t)
    (h : is_html_element t = false ∨ cfg.should_instrument t = false ∨
      (cfg.skip_existing = true ∧ has_attribute attrs cfg.id_attribute = true) ∨
      cfg.should_skip_component (current_component u) = true) :
    process_jsx_element cfg f u name attrs children = (attrs, u) := by
  unfold process_jsx_element
  simp only [hg]
  rcases h with h | h | h | h
  · simp [h]
  · by_cases h1 : is_html_element t = true <;> simp [h1, h]
  · by_cases h1 : is_html_element t = true <;>
      by_cases h2 : cfg.should_instrument t = true <;> simp [h1, h2, h]
  · by_cases h1 : is_html_element t = true <;>
      by_cases h2 : cfg.should_instrument t = true <;>
      by_cases h3 : cfg.skip_existing = true ∧ has_attribute attrs cfg.id_attribute = true <;>
      simp [h1, h2, h3, h]

/-- Full case analysis of `process_jsx_element`, with the reason a
skipped element was skipped. -/
theorem process_cases_full (cfg : PluginConfig) (f : String) (st : TraversalState)
    (name : JSXElementName) (attrs : List JSXAttrOrSpread) (children : NodeList) :
    (get_tag_name name = none ∧
      process_jsx_element cfg f st name attrs children = (attrs, st)) ∨
    ∃ t, get_tag_name name = some t ∧
      ((is_html_element t = false ∧
        process_jsx_element cfg f st name attrs children = (attrs, st)) ∨
       (cfg.should_instrument t = false ∧
        process_jsx_element cfg f st name attrs children = (attrs, st)) ∨
       ((cfg.skip_existing = true ∧ has_attribute attrs cfg.id_attribute = true) ∧
        process_jsx_element cfg f st name attrs children = (attrs, st)) ∨
       (¬(cfg.skip_existing = true ∧ has_attribute attrs cfg.id_attribute = true) ∧
        cfg.should_skip_component (current_component st) = true ∧
        process_jsx_element cfg f st name attrs children = (attrs, st)) ∨
       (is_html_element t = true ∧ cfg.should_instrument t = true ∧
        ¬(cfg.skip_existing = true ∧ has_attribute attrs cfg.id_attribute = true) ∧
        cfg.should_skip_component (current_component st) = false ∧
        process_jsx_element cfg f st name attrs children =
          instrumentStep cfg f st t attrs children)) := by
  rcases hg : get_tag_name name with _ | t
  · exact Or.inl ⟨rfl, process_skip_tag_none cfg f st name attrs children hg⟩
  · right
    refine ⟨t, rfl, ?_⟩
    by_cases h1 : is_html_element t = true
    · by_cases h2 : cfg.should_instrument t = true
      · by_cases h3 : cfg.skip_existing = true ∧ has_attribute attrs cfg.id_attribute = true
        · exact Or.inr (Or.inr (Or.inl ⟨h3,
            process_skips cfg f st name attrs children t hg
              (Or.inr (Or.inr (Or.inl h3)))⟩))
        · by_cases h4 : cfg.should_skip_component (current_component st) = true
          · exact Or.inr (Or.inr (Or.inr (Or.inl ⟨h3, h4,
              process_skips cfg f st name attrs children t hg
                (Or.inr (Or.inr (Or.inr h4)))⟩)))
          · refine Or.inr (Or.inr (Or.inr (Or.inr ⟨h1, h2, h3, by simpa using h4, ?_⟩)))
            unfold process_jsx_element
            simp [hg, h1, h2, h3, h4]
      · have h2f : cfg.should_instrument t = false := by
          cases hi : cfg.should_instrument t
          · rfl
          · exact absurd hi h2
        exact Or.inr (Or.inl ⟨h2f,
          process_skips cfg f st name attrs children t hg (Or.inr (Or.inl h2f))⟩)
    · have h1f : is_html_element t = false := by
        cases hi : is_html_element t
        · rfl
        · exact absurd hi h1
      exact Or.inl ⟨h1f, process_skips cfg f st name attrs children t hg (Or.inl h1f)⟩

/-- With `skip_existing` set, processing an element a second time — with
the attributes produced by a first processing, under a state with the
same component stack — changes nothing. -/
theorem process_second_noop (cfg : PluginConfig) (f : String)
    (hskip : cfg.skip_existing = true)
    (st u : TraversalState) (hstack : u.component_stack = st.component_stack)
    (name : JSXElementName) (attrs : List JSXAttrOrSpread)
    (children children₂ : NodeList) :
    process_jsx_element cfg f u name
      (process_jsx_element cfg f st name attrs children).1 children₂ =
      ((process_jsx_element cfg f st name attrs children).1, u) := by
  have hcur : current_component u = current_component st := by
    unfold current_component
    rw [hstack]
  rcases process_cases_full cfg f st name attrs children with ⟨hg, h⟩ | ⟨t, hg, hcase⟩
  · rw [h]
    exact process_skip_tag_none cfg f u name attrs children₂ hg
  · rcases hcase with ⟨h1, h⟩ | ⟨h2, h⟩ | ⟨h34, h⟩ | ⟨h3, h4, h⟩ | ⟨h1, h2, h3, h4, h⟩
    · rw [h]
      exact process_skips cfg f u name attrs children₂ t hg (Or.inl h1)
    · rw [h]
      exact process_skips cfg f u name attrs children₂ t hg (Or.inr (Or.inl h2))
    · rw [h]
      exact process_skips cfg f u name attrs children₂ t hg
        (Or.inr (Or.inr (Or.inl h34)))
    · rw [h]
      exact process_skips cfg f u name attrs children₂ t hg
        (Or.inr (Or.inr (Or.inr (hcur ▸ h4))))
    · rw [h, instrumentStep_fst]
      exact process_skips cfg f u name _ children₂ t hg
        (Or.inr (Or.inr (Or.inl ⟨hskip, has_attribute_appended cfg t attrs children _⟩)))

theorem popScope_pushScope (st : TraversalState) (name : String) :
    popScope (pushScope st name) = st := by
  simp [popScope, pushScope]

mutual
/-- With `skip_existing` set, re-visiting the output of a first visit —
under any state with the same component stack — changes nothing: every
element is either non-instrumentable, already filtered, or now carries
the id attribute. -/
theorem visitNode_second (cfg : PluginConfig) (f : String)
    (hskip : cfg.skip_existing = true) :
    ∀ (n : Node) (st u : TraversalState),
      u.component_stack = st.component_stack →
      visitNode cfg f u (visitNode cfg f st n).1 = ((visitNode cfg f st n).1, u)
  | .jsxElement name attrs children, st, u, hstack => by
    have hl := visitNodeList_second cfg f hskip children st u hstack
    have hstack' : u.component_stack =
        (visitNodeList cfg f st children).2.component_stack := by
      rw [visitNodeList_stack]
      exact hstack
    have hp := process_second_noop cfg f hskip
      (visitNodeList cfg f st children).2 u hstack' name attrs
      (visitNodeList cfg f st children).1 (visitNodeList cfg f st children).1
    simp only [visitNode]
    rw [hl]
    simp only []
    rw [hp]
  | .jsxText s, st, u, hstack => rfl
  | .jsxExprLitStr s, st, u, hstack => rfl
  | .jsxExprTpl quasis, st, u, hstack => rfl
  | .jsxExprOther, st, u, hstack => rfl
  | .jsxFragment children, st, u, hstack => by
    have hl := visitNodeList_second cfg f hskip children st u hstack
    simp only [visitNode]
    rw [hl]
  | .fnDecl name body, st, u, hstack => by
    by_cases hn : is_component_name name = true
    · have hpush : (pushScope u name).component_stack =
          (pushScope st name).component_stack := by
        simp [pushScope, hstack]
      have hl := visitNodeList_second cfg f hskip body
        (pushScope st name) (pushScope u name) hpush
      simp only [visitNode, hn, if_true]
      rw [hl]
      simp only []
      rw [popScope_pushScope]
    · have hl := visitNodeList_second cfg f hskip body st u hstack
      simp only [visitNode, hn, Bool.false_eq_true, if_false]
      rw [hl]
  | .varDeclFnInit name body, st, u, hstack => by
    by_cases hn : is_component_name name = true
    · have hpush : (pushScope u name).component_stack =
          (pushScope st name).component_stack := by
        simp [pushScope, hstack]
      have hl := visitNodeList_second cfg f hskip body
        (pushScope st name) (pushScope u name) hpush
      simp only [visitNode, hn, if_true]
      rw [hl]
      simp only []
      rw [popScope_pushScope]
    · have hl := visitNodeList_second cfg f hskip body st u hstack
      simp only [visitNode, hn, Bool.false_eq_true, if_false]
      rw [hl]
  | .varDeclOtherInit name body, st, u, hstack => by
    have hl := visitNodeList_second cfg f hskip body st u hstack
    simp only [visitNode]
    rw [hl]
  | .classDecl name body, st, u, hstack => by
    by_cases hn : is_component_name name = true
    · have hpush : (pushScope u name).component_stack =
          (pushScope st name).component_stack := by
        simp [pushScope, hstack]
      have hl := visitNodeList_second cfg f hskip body
        (pushScope st name) (pushScope u name) hpush
      simp only [visitNode, hn, if_true]
      rw [hl]
      simp only []
      rw [popScope_pushScope]
    · have hl := visitNodeList_second cfg f hskip body st u hstack
      simp only [visitNode, hn, Bool.false_eq_true, if_false]
      rw [hl]
  | .otherNode children, st, u, hstack => by
    have hl := visitNodeList_second cfg f hskip children st u hstack
    simp only [visitNode]
    rw [hl]
/-- List version of `visitNode_second`. -/
theorem visitNodeList_second (cfg : PluginConfig) (f : String)
    (hskip : cfg.skip_existing = true) :
    ∀ (ns : NodeList) (st u : TraversalState),
      u.component_stack = st.component_stack →
      visitNodeList cfg f u (visitNodeList cfg f st ns).1 =
        ((visitNodeList cfg f st ns).1, u)
  | .nil, st, u, hstack => rfl
  | .cons n ns, st, u, hstack => by
    have h1 := visitNode_second cfg f hskip n st u hstack
    have hstack1 : u.component_stack = (visitNode cfg f st n).2.component_stack := by
      rw [visitNode_stack]
      exact hstack
    have h2 := visitNodeList_second cfg f hskip ns (visitNode cfg f st n).2 u hstack1
    simp only [visitNodeList]
    rw [h1]
    simp only []
    rw [h2]
end

/-- `appendedAttrs`, with the alias condition written as one
conjunction: the aliases attribute appears exactly when alias
generation is enabled and produced a non-empty list. -/
theorem appendedAttrs_eq (cfg : PluginConfig) (t : String)
    (attrs : List JSXAttrOrSpread) (children : NodeList) (fid : String) :
    appendedAttrs cfg t attrs children fid =
      [mkAttr cfg.id_attribute fid,
       mkAttr cfg.type_attribute (get_semantic_type t
         (get_attribute_value attrs "type") (get_attribute_value attrs "placeholder")
         (get_attribute_value attrs "name"))] ++
      (if cfg.generate_aliases = true ∧
          generate_aliases cfg (aliasCtx t attrs children) ≠ []
       then [mkAttr cfg.aliases_attribute
         (format_aliases (generate_aliases cfg (aliasCtx t attrs children)))]
       else []) := by
  unfold appendedAttrs
  by_cases h1 : cfg.generate_aliases = true
  · by_cases h2 : generate_aliases cfg (aliasCtx t attrs children) = [] <;>
      simp [h1, h2]
  · simp [h1]

/-- The descriptor part of `generate_id`, written out: the first
*present* source among pre-existing id, text content, aria-label,
placeholder, title — normalized, and omitted when no source is present
or the chosen value normalizes to the empty string. -/
theorem descPart_eq (ctx : IdContext) :
    descPart ctx =
      (match ctx.existing_id.or (ctx.text_content.or (ctx.aria_label.or
          (ctx.placeholder.or ctx.title))) with
       | some d => if normalize_text d = "" then [] else [normalize_text d]
       | none => []) := by
  unfold descPart descriptorOf
  rw [Option.or_assoc, Option.or_assoc, Option.or_assoc]
  cases hd : ctx.existing_id.or (ctx.text_content.or (ctx.aria_label.or
      (ctx.placeholder.or ctx.title))) with
  | none => rfl
  | some d =>
    by_cases hn : normalize_text d = ""
    · simp [hn]
      rfl
    · have : (normalize_text d).isEmpty = false := by
        cases hi : (normalize_text d).isEmpty
        · rfl
        · exact absurd ((String.isEmpty_iff _).mp hi) hn
      simp [hn, this]

/-! ## Claim C4 -/

/-- Claim C4 (counterexample): with `hash-identifiers` set and the
configured prefix `"app"`, the generated identifier is
`"ui-10c8d4bb"` — it begins with the literal `"ui-"`, not with the
configured prefix, so the claim that the hashed identifier is the
*configured* prefix followed by the digest is false. -/
theorem C4_counterexample :
    generate_id cfgApp ctxBtn = "ui-10c8d4bb" ∧
    ("app".data.isPrefixOf (generate_id cfgApp ctxBtn).data) = false := by
  refine ⟨?_, ?_⟩ <;> decide

/-- Claim C4 (amended): with the hash-identifiers option set, for every
element and configuration the generated identifier is the literal
`"ui-"` (the configured prefix is ignored here) followed by exactly 8
lowercase hexadecimal characters; identical inputs give identical
hashed identifiers since `generate_id` is a function of its inputs. -/
theorem C4_hashed_format (cfg : PluginConfig) (ctx : IdContext)
    (h : cfg.hash_ids = true) :
    ∃ hx : List Char, (generate_id cfg ctx).data = 'u' :: 'i' :: '-' :: hx ∧
      hx.length = 8 ∧ ∀ c ∈ hx, isLowerHexDigit c = true := by
  have hs := generate_id_shape cfg ctx
  unfold GenShape at hs
  rw [if_pos h] at hs
  exact hs

/-- Claim C4 (witness): the amended statement at the default-prefix
hashing configuration and a bare button context. -/
theorem C4_witness :
    cfgHash.hash_ids = true ∧
    ∃ hx : List Char, (generate_id cfgHash ctxBtn).data = 'u' :: 'i' :: '-' :: hx ∧
      hx.length = 8 ∧ ∀ c ∈ hx, isLowerHexDigit c = true :=
  ⟨rfl, C4_hashed_format cfgHash ctxBtn rfl⟩

/-! ## Claim C5 -/

/-- Claim C5 (counterexample): for an element carrying the pre-existing
id `""` (present but empty) and the aria-label `"hello"`, the claim
says the descriptor is the first *non-empty* source, `"hello"`, giving
`"ui-hello-button"`; the code selects the first *present* source, the
empty id, whose normalization is empty, so the descriptor part is
dropped and the identifier is `"ui-button"`. -/
theorem C5_counterexample :
    generate_id defaultConfig ctxC5 = "ui-button" ∧
    normalize_text "hello" = "hello" ∧
    generate_id defaultConfig ctxC5 ≠ "ui-hello-button" := by
  refine ⟨?_, ?_, ?_⟩ <;> decide

/-- Claim C5 (amended): without hashing, the generated identifier is
the prefix, component and file parts, then a descriptor part that is
the first *present* value among pre-existing id, extracted text
content, aria-label, placeholder and title — normalized by
`normalize_text` (lowercase, non-alphanumerics to spaces, collapse,
at most 4 words, hyphen-join) — omitted entirely when no source is
present *or the selected value normalizes to the empty string* —
followed by the semantic-type suffix. -/
theorem C5_descriptor_selection (cfg : PluginConfig) (ctx : IdContext)
    (h : cfg.hash_ids = false) :
    generate_id cfg ctx =
      joinDash ((cfg.id_prefix :: (componentPart cfg ctx ++ filePart cfg ctx ++
        (match ctx.existing_id.or (ctx.text_content.or (ctx.aria_label.or
            (ctx.placeholder.or ctx.title))) with
         | some d => if normalize_text d = "" then [] else [normalize_text d]
         | none => []))) ++ [get_element_type_suffix ctx.tag_name]) := by
  unfold generate_id idPartsPre
  rw [← descPart_eq]
  simp [h]

/-- Claim C5 (witness): the amended statement at the default
configuration and the empty-id/aria-label context. -/
theorem C5_witness :
    defaultConfig.hash_ids = false ∧
    generate_id defaultConfig ctxC5 =
      joinDash ((defaultConfig.id_prefix :: (componentPart defaultConfig ctxC5 ++
        filePart defaultConfig ctxC5 ++
        (match ctxC5.existing_id.or (ctxC5.text_content.or (ctxC5.aria_label.or
            (ctxC5.placeholder.or ctxC5.title))) with
         | some d => if normalize_text d = "" then [] else [normalize_text d]
         | none => []))) ++ [get_element_type_suffix ctxC5.tag_name]) :=
  ⟨rfl, C5_descriptor_selection defaultConfig ctxC5 rfl⟩

/-! ## Claim C6 -/

/-- Claim C6 (counterexample): an input with declared `type="email"` is
given the identifier `"ui-input"` but the semantic-type attribute
`"email-input"`: the assembled identifier's final part is the tag-only
suffix `"input"`, not the §4.5 classifier result `"email-input"`
(which cannot even fit, being longer than the whole identifier). -/
theorem C6_counterexample :
    idAttrValueAt defaultConfig
      (runPass defaultConfig "f" (.cons inputEmail .nil)) 0 = some "ui-input" ∧
    typeAttrValueAt defaultConfig
      (runPass defaultConfig "f" (.cons inputEmail .nil)) 0 = some "email-input" ∧
    ("ui-input").data.length < ("email-input").data.length := by
  refine ⟨?_, ?_, ?_⟩ <;> decide

/-- Claim C6 (amended): without hashing, the assembled identifier's
final part is the tag-only suffix of `get_element_type_suffix`
(independent of the declared input type), while the §4.5 classifier —
which does map declared type `"email"` to the `"email-input"` role —
determines the separately attached semantic-type attribute. -/
theorem C6_suffix_is_tag_only (cfg : PluginConfig) (ctx : IdContext)
    (h : cfg.hash_ids = false) :
    (∃ pre, (generate_id cfg ctx).data =
      pre ++ '-' :: (get_element_type_suffix ctx.tag_name).data) ∧
    (∀ p n, get_semantic_type "input" (some "email") p n = "email-input") := by
  constructor
  · have hs := generate_id_shape cfg ctx
    unfold GenShape at hs
    rw [if_neg (by rw [h]; exact Bool.false_ne_true)] at hs
    exact hs
  · intro p n
    rfl

/-- Claim C6 (witness): the amended statement at the default
configuration and a bare button context. -/
theorem C6_witness :
    defaultConfig.hash_ids = false ∧
    ((∃ pre, (generate_id defaultConfig ctxBtn).data =
      pre ++ '-' :: (get_element_type_suffix ctxBtn.tag_name).data) ∧
    (∀ p n, get_semantic_type "input" (some "email") p n = "email-input")) :=
  ⟨rfl, C6_suffix_is_tag_only defaultConfig ctxBtn rfl⟩

/-! ## Claim C7 -/

/-- Claim C7: component-scope exclusion is evaluated as: excluded when
the enclosing component name is on the deny-list; otherwise excluded
when the allow-list is non-empty and there is either no enclosing
component or its name is absent from the allow-list; otherwise
included.  Moreover an element whose current scope is excluded is
never instrumented: processing returns it and the state unchanged. -/
theorem C7_component_scope :
    (∀ (cfg : PluginConfig) (name : Option String),
      cfg.should_skip_component name = true ↔
        ((∃ n, name = some n ∧ n ∈ cfg.skip_in_components) ∨
         (cfg.only_in_components ≠ [] ∧
           (name = none ∨ ∃ n, name = some n ∧ n ∉ cfg.only_in_components)))) ∧
    (∀ (cfg : PluginConfig) (f : String) (st : TraversalState)
        (name : JSXElementName) (attrs : List JSXAttrOrSpread) (children : NodeList),
      cfg.should_skip_component (current_component st) = true →
      process_jsx_element cfg f st name attrs children = (attrs, st)) := by
  constructor
  · intro cfg name
    unfold PluginConfig.should_skip_component
    cases name with
    | none =>
      by_cases he : cfg.only_in_components = [] <;>
        simp [he, List.isEmpty_iff]
    | some n =>
      by_cases hd : n ∈ cfg.skip_in_components
      · simp only [List.any_eq_true, beq_iff_eq]
        simp [hd]
      · by_cases he : cfg.only_in_components = []
        · simp [hd, he, List.isEmpty_iff, List.any_eq_true]
        · by_cases hm : n ∈ cfg.only_in_components
          · simp [hd, he, hm, List.isEmpty_iff, List.any_eq_true]
          · simp [hd, he, hm, List.isEmpty_iff, List.any_eq_true]
  · intro cfg f st name attrs children hsk
    cases hg : get_tag_name name with
    | none => exact process_skip_tag_none cfg f st name attrs children hg
    | some t =>
      exact process_skips cfg f st name attrs children t hg
        (Or.inr (Or.inr (Or.inr hsk)))

/-- Claim C7 (witness): with the allow-list `["OnlyThis"]`, a component
named `NotThis` is excluded, the absence of an enclosing component is
excluded, and an element inside `NotThis` is left untouched. -/
theorem C7_witness :
    cfgOnly.should_skip_component (some "NotThis") = true ∧
    cfgOnly.should_skip_component none = true ∧
    process_jsx_element cfgOnly "f" stNotThis (.ident "button") [] .nil =
      ([], stNotThis) := by
  refine ⟨?_, ?_, ?_⟩
  · exact (C7_component_scope.1 cfgOnly (some "NotThis")).mpr
      (Or.inr ⟨by decide, Or.inr ⟨"NotThis", rfl, by decide⟩⟩)
  · exact (C7_component_scope.1 cfgOnly none).mpr (Or.inr ⟨by decide, Or.inl rfl⟩)
  · exact C7_component_scope.2 cfgOnly "f" stNotThis (.ident "button") [] .nil
      (by decide)

/-! ## Claim C2 -/

/-- Claim C2 (counterexample): two bare buttons generate the same
identifier `"ui-button"`; the second is attached the disambiguated
`"ui-button-2"`, but that disambiguated form is *not* recorded into the
issued-ID set, which still holds only `"ui-button"` — so the claim that
the disambiguated form is recorded as issued is false. -/
theorem C2_counterexample :
    idAttrValueAt defaultConfig (runPass defaultConfig "f" progC2) 1 =
      some "ui-button-2" ∧
    (runState defaultConfig "f" progC2).processed_ids = ["ui-button"] ∧
    "ui-button-2" ∉ (runState defaultConfig "f" progC2).processed_ids := by
  refine ⟨?_, ?_, ?_⟩ <;> decide

/-- Claim C2 (amended): when the generated identifier is already in the
per-unit issued-ID set, the attached identifier is the generated
identifier with `-` and the positional counter appended and the
issued-ID set is left *unchanged* (the disambiguated form is not
recorded); a non-colliding identifier is attached and recorded as-is. -/
theorem C2_collision_resolution (cfg : PluginConfig) (f : String)
    (st : TraversalState) (name : JSXElementName)
    (attrs : List JSXAttrOrSpread) (children : NodeList) (t : String)
    (hg : get_tag_name name = some t)
    (h1 : is_html_element t = true)
    (h2 : cfg.should_instrument t = true)
    (h3 : ¬(cfg.skip_existing = true ∧ has_attribute attrs cfg.id_attribute = true))
    (h4 : cfg.should_skip_component (current_component st) = false) :
    process_jsx_element cfg f st name attrs children =
      (let c := lookupCounter st.element_counters t
       let gen := generate_id cfg (idCtx f st t attrs children (c + 1))
       let collided := st.processed_ids.contains gen
       (attrs ++ appendedAttrs cfg t attrs children
          (if collided then gen ++ "-" ++ natToDec (c + 1) else gen),
        { component_stack := st.component_stack
          element_counters := setCounter st.element_counters t (c + 1)
          processed_ids := if collided then st.processed_ids
            else gen :: st.processed_ids
          journal := st.journal ++
            [⟨t, gen, c + 1, collided⟩] })) := by
  have hi : process_jsx_element cfg f st name attrs children =
      instrumentStep cfg f st t attrs children := by
    unfold process_jsx_element
    simp [hg, h1, h2, h3, h4]
  rw [hi]
  apply Prod.ext <;> (simp only [instrumentStep_fst, instrumentStep_snd]; try rfl)

/-- Claim C2 (witness): processing a bare button in a state that has
already issued `"ui-button"`: the attached identifier is
`"ui-button-1"` and the issued-ID set is unchanged. -/
theorem C2_witness :
    (process_jsx_element defaultConfig "f" stIssuedBtn
      (.ident "button") [] .nil).2.processed_ids = ["ui-button"] ∧
    (process_jsx_element defaultConfig "f" stIssuedBtn
      (.ident "button") [] .nil).1 =
      [mkAttr "data-ui-id" "ui-button-1", mkAttr "data-ui-type" "button"] := by
  have h := C2_collision_resolution defaultConfig "f" stIssuedBtn
    (.ident "button") [] .nil "button" rfl (by decide) (by decide)
    (by decide) (by decide)
  rw [h]
  exact ⟨by decide, by decide⟩

/-! ## Claim C9 -/

/-- Claim C9: visiting an element mutates only its attribute list: the
name is kept, the children are those of the recursive visit, and the
attribute list is the original list with attributes appended — nothing
is removed or reordered.  A skipped element gets nothing appended; an
instrumented element gets, in order, the identifier attribute, the
semantic-type attribute, and — exactly when alias generation is enabled
and produced a non-empty list — the aliases attribute holding the
comma-joined alias list. -/
theorem C9_attachment (cfg : PluginConfig) (f : String) (st : TraversalState)
    (name : JSXElementName) (attrs : List JSXAttrOrSpread) (children : NodeList) :
    ∃ app st',
      visitNode cfg f st (.jsxElement name attrs children) =
        (.jsxElement name (attrs ++ app) (visitNodeList cfg f st children).1, st') ∧
      (app = [] ∨
       ∃ t final, get_tag_name name = some t ∧
         app = [mkAttr cfg.id_attribute final,
                mkAttr cfg.type_attribute (get_semantic_type t
                  (get_attribute_value attrs "type")
                  (get_attribute_value attrs "placeholder")
                  (get_attribute_value attrs "name"))] ++
           (if cfg.generate_aliases = true ∧
               generate_aliases cfg
                 (aliasCtx t attrs (visitNodeList cfg f st children).1) ≠ []
            then [mkAttr cfg.aliases_attribute (format_aliases
              (generate_aliases cfg
                (aliasCtx t attrs (visitNodeList cfg f st children).1)))]
            else [])) := by
  simp only [visitNode]
  rcases process_cases_full cfg f (visitNodeList cfg f st children).2 name attrs
      (visitNodeList cfg f st children).1 with ⟨hg, h⟩ | ⟨t, hg, hcase⟩
  · exact ⟨[], (visitNodeList cfg f st children).2, by rw [h]; simp, Or.inl rfl⟩
  · have hskipcase : ∀ _h : process_jsx_element cfg f
        (visitNodeList cfg f st children).2 name attrs
        (visitNodeList cfg f st children).1 =
        (attrs, (visitNodeList cfg f st children).2),
        ∃ app st',
        (Node.jsxElement name (process_jsx_element cfg f
          (visitNodeList cfg f st children).2 name attrs
          (visitNodeList cfg f st children).1).1 (visitNodeList cfg f st children).1,
         (process_jsx_element cfg f (visitNodeList cfg f st children).2 name attrs
          (visitNodeList cfg f st children).1).2) =
          (.jsxElement name (attrs ++ app) (visitNodeList cfg f st children).1, st') ∧
        (app = [] ∨ ∃ t final, get_tag_name name = some t ∧
         app = [mkAttr cfg.id_attribute final,
                mkAttr cfg.type_attribute (get_semantic_type t
                  (get_attribute_value attrs "type")
                  (get_attribute_value attrs "placeholder")
                  (get_attribute_value attrs "name"))] ++
           (if cfg.generate_aliases = true ∧
               generate_aliases cfg
                 (aliasCtx t attrs (visitNodeList cfg f st children).1) ≠ []
            then [mkAttr cfg.aliases_attribute (format_aliases
              (generate_aliases cfg
                (aliasCtx t attrs (visitNodeList cfg f st children).1)))]
            else [])) := by
      intro h
      exact ⟨[], (visitNodeList cfg f st children).2, by rw [h]; simp, Or.inl rfl⟩
    rcases hcase with ⟨_, h⟩ | ⟨_, h⟩ | ⟨_, h⟩ | ⟨_, _, h⟩ | ⟨_, _, _, _, h⟩
    · exact hskipcase h
    · exact hskipcase h
    · exact hskipcase h
    · exact hskipcase h
    · refine ⟨appendedAttrs cfg t attrs (visitNodeList cfg f st children).1
        (IssuedEntry.finalId ⟨t,
          generate_id cfg (idCtx f (visitNodeList cfg f st children).2 t attrs
            (visitNodeList cfg f st children).1
            (lookupCounter (visitNodeList cfg f st children).2.element_counters t + 1)),
          lookupCounter (visitNodeList cfg f st children).2.element_counters t + 1,
          (visitNodeList cfg f st children).2.processed_ids.contains
            (generate_id cfg (idCtx f (visitNodeList cfg f st children).2 t attrs
              (visitNodeList cfg f st children).1
              (lookupCounter (visitNodeList cfg f st children).2.element_counters t + 1)))⟩),
        (instrumentStep cfg f (visitNodeList cfg f st children).2 t attrs
          (visitNodeList cfg f st children).1).2, ?_, ?_⟩
      · rw [h, instrumentStep_fst]
      · right
        exact ⟨t, _, hg, appendedAttrs_eq cfg t attrs
          (visitNodeList cfg f st children).1 _⟩

/-- The attribute list produced by one instrumentation, with the
appended attributes spelled out. -/
theorem instrumentStep_fst_shape (cfg : PluginConfig) (f : String)
    (st : TraversalState) (t : String) (attrs : List JSXAttrOrSpread)
    (children : NodeList) :
    ∃ final, (instrumentStep cfg f st t attrs children).1 =
      attrs ++ (mkAttr cfg.id_attribute final ::
        mkAttr cfg.type_attribute (get_semantic_type t
          (get_attribute_value attrs "type") (get_attribute_value attrs "placeholder")
          (get_attribute_value attrs "name")) ::
        (if cfg.generate_aliases = true ∧
            generate_aliases cfg (aliasCtx t attrs children) ≠ []
         then [mkAttr cfg.aliases_attribute (format_aliases
           (generate_aliases cfg (aliasCtx t attrs children)))]
         else [])) := by
  refine ⟨IssuedEntry.finalId ⟨t, generate_id cfg (idCtx f st t attrs children
      (lookupCounter st.element_counters t + 1)),
      lookupCounter st.element_counters t + 1,
      st.processed_ids.contains (generate_id cfg (idCtx f st t attrs children
        (lookupCounter st.element_counters t + 1)))⟩, ?_⟩
  have hfst := instrumentStep_fst cfg f st t attrs children
  rw [hfst]
  show attrs ++ appendedAttrs cfg t attrs children
    (IssuedEntry.finalId ⟨t, generate_id cfg (idCtx f st t attrs children
      (lookupCounter st.element_counters t + 1)),
      lookupCounter st.element_counters t + 1,
      st.processed_ids.contains (generate_id cfg (idCtx f st t attrs children
        (lookupCounter st.element_counters t + 1)))⟩) = _
  rw [appendedAttrs_eq]
  simp

/-! ## Claim C10 -/

/-- Claim C10: with `skip-existing` off, an element that already
carries an attribute with the configured id-attribute name — and passes
the tag and component filters — gets a *second* attribute of that same
name appended; the pre-existing attribute list is preserved as a prefix
(nothing replaced or updated in place), so the result carries at least
two attributes of that name. -/
theorem C10_duplicate_attribute (cfg : PluginConfig) (f : String)
    (st : TraversalState) (name : JSXElementName)
    (attrs : List JSXAttrOrSpread) (children : NodeList) (t : String)
    (hskip : cfg.skip_existing = false)
    (hg : get_tag_name name = some t)
    (h1 : is_html_element t = true)
    (h2 : cfg.should_instrument t = true)
    (h4 : cfg.should_skip_component (current_component st) = false)
    (hhas : has_attribute attrs cfg.id_attribute = true) :
    ∃ final rest st',
      process_jsx_element cfg f st name attrs children =
        (attrs ++ (mkAttr cfg.id_attribute final :: rest), st') ∧
      countAttrNamed (attrs ++ (mkAttr cfg.id_attribute final :: rest))
        cfg.id_attribute ≥ 2 := by
  have h3 : ¬(cfg.skip_existing = true ∧ has_attribute attrs cfg.id_attribute = true) := by
    simp [hskip]
  have hi : process_jsx_element cfg f st name attrs children =
      instrumentStep cfg f st t attrs children := by
    unfold process_jsx_element
    simp [hg, h1, h2, h3, h4]
  obtain ⟨final, hfst⟩ := instrumentStep_fst_shape cfg f st t attrs children
  refine ⟨final,
    mkAttr cfg.type_attribute (get_semantic_type t
      (get_attribute_value attrs "type") (get_attribute_value attrs "placeholder")
      (get_attribute_value attrs "name")) ::
      (if cfg.generate_aliases = true ∧
          generate_aliases cfg (aliasCtx t attrs children) ≠ []
       then [mkAttr cfg.aliases_attribute (format_aliases
         (generate_aliases cfg (aliasCtx t attrs children)))]
       else []),
    (instrumentStep cfg f st t attrs children).2, ?_, ?_⟩
  · rw [hi]
    refine Prod.ext ?_ rfl
    rw [hfst]
  · have hone : 0 < countAttrNamed attrs cfg.id_attribute := by
      unfold countAttrNamed
      rw [List.countP_pos_iff]
      unfold has_attribute at hhas
      exact List.any_eq_true.mp hhas
    unfold countAttrNamed
    rw [List.countP_append, List.countP_cons]
    have hself : attrNamed cfg.id_attribute (mkAttr cfg.id_attribute final) = true := by
      simp [attrNamed, mkAttr]
    rw [hself]
    unfold countAttrNamed at hone
    simp only [if_pos]
    omega

/-- Claim C10 (witness): with `skip-existing` off, a button already
carrying `data-ui-id` gets a second `data-ui-id` attribute appended. -/
theorem C10_witness :
    cfgNoSkip.skip_existing = false ∧
    ∃ final rest st',
      process_jsx_element cfgNoSkip "f" initialState (.ident "button")
        attrsC10 .nil =
        (attrsC10 ++ (mkAttr cfgNoSkip.id_attribute final :: rest), st') ∧
      countAttrNamed (attrsC10 ++ (mkAttr cfgNoSkip.id_attribute final :: rest))
        cfgNoSkip.id_attribute ≥ 2 :=
  ⟨rfl, C10_duplicate_attribute cfgNoSkip "f" initialState (.ident "button")
    attrsC10 .nil "button" rfl rfl (by decide) (by decide) (by decide) (by decide)⟩

/-! ## Claim C1 -/

/-- Claim C1 (counterexample): with the tag set `["a", "link"]` — whose
type suffixes coincide — a unit of four bare elements gives the third
and the fourth element the very same final identifier `"ui-link-2"`
(their inputs carried no id attribute), so two instrumented elements of
one unit share a final identifier and the uniqueness claim is false. -/
theorem C1_counterexample :
    idAttrValueAt cfgLinkTags (runPass cfgLinkTags "app.tsx" progC1) 2 =
      some "ui-link-2" ∧
    idAttrValueAt cfgLinkTags (runPass cfgLinkTags "app.tsx" progC1) 3 =
      some "ui-link-2" ∧
    idAttrValueAt cfgLinkTags progC1 2 = none ∧
    idAttrValueAt cfgLinkTags progC1 3 = none := by
  refine ⟨?_, ?_, ?_, ?_⟩ <;> decide

/-- Claim C1 (amended): within one source unit, for every input tree
and configuration, no two instrumented elements *with the same tag
name* receive the same final identifier after collision disambiguation
(the journal records, in traversal order, the tag and final identifier
of every instrumented element). -/
theorem C1_uniqueness_same_tag (cfg : PluginConfig) (f : String) (prog : NodeList) :
    (runState cfg f prog).journal.Pairwise
      (fun a b => a.tag = b.tag → a.finalId ≠ b.finalId) :=
  (visitNodeList_preserves cfg f (UniqInv cfg) (process_uniqInv cfg f) prog
    initialState (uniqInv_initial cfg)).distinct

/-! ## Claim C3 -/

/-- Claim C3 (counterexample): with the default configuration
(`skip-existing` on), a unit whose first button already carries
`data-ui-id` and whose second button is bare leaves the `button`
counter at 1 and gives the second button positional index 1 — the
counter was *not* incremented for the filtered-out first button, so the
claim that skipped elements still advance the counter is false. -/
theorem C3_counterexample :
    (runState defaultConfig "app.tsx" progC3).journal =
      [⟨"button", "ui-button", 1, false⟩] ∧
    lookupCounter (runState defaultConfig "app.tsx" progC3).element_counters
      "button" = 1 ∧
    defaultConfig.should_instrument "button" = true := by
  refine ⟨?_, ?_, ?_⟩ <;> decide

/-- Claim C3 (amended): the per-tag positional counter is 1-based and
is incremented exactly once per *instrumented* element of that tag
(elements skipped by the tag-set, skip-existing or component filters do
not advance it), so for every tag the journalled positional indices of
that tag are exactly `1, 2, …, counter` in traversal order: the Nth
instrumented element of a tag receives positional index N. -/
theorem C3_counter_per_instrumented (cfg : PluginConfig) (f : String)
    (prog : NodeList) (t : String) :
    (((runState cfg f prog).journal.filter (fun e => e.tag == t)).map
      IssuedEntry.index) =
      List.range' 1 (lookupCounter (runState cfg f prog).element_counters t) :=
  (visitNodeList_preserves cfg f CounterInv (process_counterInv cfg f) prog
    initialState counterInv_initial) t

/-! ## Claim C8 -/

/-- Claim C8: with `skip-existing` on, running the pass a second time
on the tree produced by a first run changes nothing: the pass is
idempotent. -/
theorem C8_idempotent (cfg : PluginConfig) (f : String) (prog : NodeList)
    (h : cfg.skip_existing = true) :
    runPass cfg f (runPass cfg f prog) = runPass cfg f prog := by
  unfold runPass
  rw [visitNodeList_second cfg f h prog initialState initialState rfl]

/-- Claim C8 (witness): idempotence at the default configuration on a
small unit. -/
theorem C8_witness :
    defaultConfig.skip_existing = true ∧
    runPass defaultConfig "app.tsx" (runPass defaultConfig "app.tsx" progC3) =
      runPass defaultConfig "app.tsx" progC3 :=
  ⟨rfl, C8_idempotent defaultConfig "app.tsx" progC3 rfl⟩
